import Mathlib

/-
  Verification of the cinema seat-reservation core
  (ReservationsService.createReservation / confirmPayment / expireReservation,
   utils/retry.util.ts, utils/batch-processor.util.ts and the expiration
   consumer) against its natural-language specification.

  The store is embedded as explicit state (lists of rows, TypeORM findOne /
  getOne = first match, save of a fetched entity = update of the row with the
  same primary key, insert = append with a freshly generated id).  A service
  call is a pure function threading the state; the try/catch + rollback
  structure of the source is mirrored by runner functions that return the
  original state on error.  Timestamps are naturals counting milliseconds
  since the epoch, exactly the resolution of JavaScript Date.now().
-/

namespace Cinema

/-- Seat.status enum from seat.entity.ts. -/
inductive SeatStatus
  | AVAILABLE
  | RESERVED
  | SOLD
deriving DecidableEq, Repr

/-- ReservationStatus enum from reservation.entity.ts. -/
inductive ReservationStatus
  | PENDING
  | CONFIRMED
  | EXPIRED
  | CANCELLED
deriving DecidableEq, Repr

/-- sessions table row (session.entity.ts); bookkeeping columns that no
    service branch reads (createdAt, updatedAt, isActive) are omitted. -/
structure MovieSession where
  id : Nat
  movieName : String
  startTime : Nat
  roomNumber : String
  ticketPrice : Nat
deriving DecidableEq, Repr

/-- seats table row (seat.entity.ts); the row label and timestamps are
    never read by the three operations and are omitted. -/
structure Seat where
  id : Nat
  seatNumber : String
  status : SeatStatus
  sessionId : Nat
deriving DecidableEq, Repr

/-- reservations table row (reservation.entity.ts). -/
structure Reservation where
  id : Nat
  seatId : Nat
  userId : String
  status : ReservationStatus
  expiresAt : Nat
deriving DecidableEq, Repr

/-- sales table row (sale.entity.ts). -/
structure Sale where
  id : Nat
  seatId : Nat
  userId : String
  reservationId : Nat
  amount : Nat
  paidAt : Nat
deriving DecidableEq, Repr

/-- The durable store.  nextId models the id generator: every insert uses
    nextId as the new primary key and increments it. -/
structure Db where
  sessions : List MovieSession
  seats : List Seat
  reservations : List Reservation
  sales : List Sale
  nextId : Nat
deriving DecidableEq, Repr

/-- The exceptions thrown by ReservationsService, one constructor per
    throw site reachable in the embedded paths. -/
inductive SvcError
  | sessionNotFound (sessionId : Nat)
  | seatNotFoundInSession (seatNumber : String) (sessionId : Nat)
  | seatNotAvailable (seatNumber : String) (current : SeatStatus)
  | reservationNotFound (reservationId : Nat)
  | reservationNotPending (current : ReservationStatus)
  | reservationExpired
  | confirmedButSaleMissing
  | internalError
deriving DecidableEq, Repr

/-- The error taxonomy of spec section 7 (kinds, not exception class names). -/
inductive ErrorKind
  | NOT_FOUND
  | CONFLICT
  | INVALID_REQUEST
  | INVALID_STATE
  | INTERNAL
deriving DecidableEq, Repr

/-- Classification of each thrown error under the taxonomy of spec
    section 7 (NotFoundException rows are NOT_FOUND; the seat-unavailable,
    not-pending and expired BadRequestExceptions are the CONFLICT rows of
    the table; the confirmed-without-sale error is INVALID_STATE). -/
def SvcError.kind : SvcError → ErrorKind
  | .sessionNotFound _ => .NOT_FOUND
  | .seatNotFoundInSession _ _ => .NOT_FOUND
  | .seatNotAvailable _ _ => .CONFLICT
  | .reservationNotFound _ => .NOT_FOUND
  | .reservationNotPending _ => .CONFLICT
  | .reservationExpired => .CONFLICT
  | .confirmedButSaleMissing => .INVALID_STATE
  | .internalError => .INTERNAL

/-- findOne(Session, where id) - first row with the id. -/
def findSession (db : Db) (sessionId : Nat) : Option MovieSession :=
  db.sessions.find? (fun s => s.id == sessionId)

/-- Seat lookup by primary key (the joined reservation.seat relation). -/
def findSeatById (db : Db) (seatId : Nat) : Option Seat :=
  db.seats.find? (fun s => s.id == seatId)

/-- The locked seat query of createReservation: where sessionId and
    seatNumber. -/
def findSeatByNumber (db : Db) (sessionId : Nat) (seatNumber : String) : Option Seat :=
  db.seats.find? (fun s => s.sessionId == sessionId && s.seatNumber == seatNumber)

/-- Reservation lookup by primary key (expireReservation's query). -/
def findReservationById (db : Db) (reservationId : Nat) : Option Reservation :=
  db.reservations.find? (fun r => r.id == reservationId)

/-- confirmPayment's target query: where id and userId. -/
def findReservationByIdAndUser (db : Db) (reservationId : Nat) (userId : String) :
    Option Reservation :=
  db.reservations.find? (fun r => r.id == reservationId && r.userId == userId)

/-- findOne(Sale, where reservationId). -/
def findSaleByReservation (db : Db) (reservationId : Nat) : Option Sale :=
  db.sales.find? (fun s => s.reservationId == reservationId)

/-- findOne(Sale, where id) - the post-commit reload of the primary sale. -/
def findSaleById (db : Db) (saleId : Nat) : Option Sale :=
  db.sales.find? (fun s => s.id == saleId)

/-- manager.save(Seat, seat) on a fetched entity whose only mutated field is
    status: update of the row with that primary key. -/
def setSeatStatus (seats : List Seat) (seatId : Nat) (st : SeatStatus) : List Seat :=
  seats.map (fun s => if s.id = seatId then { s with status := st } else s)

/-- manager.save(Reservation, res) on a fetched entity whose only mutated
    field is status. -/
def setReservationStatus (rs : List Reservation) (reservationId : Nat)
    (st : ReservationStatus) : List Reservation :=
  rs.map (fun r => if r.id = reservationId then { r with status := st } else r)

/-- manager.save of a freshly created Reservation: insert with a generated
    primary key. -/
def insertReservation (db : Db) (seatId : Nat) (userId : String) (expiresAt : Nat) :
    Db × Reservation :=
  let r : Reservation :=
    { id := db.nextId, seatId := seatId, userId := userId,
      status := ReservationStatus.PENDING, expiresAt := expiresAt }
  ({ db with reservations := db.reservations ++ [r], nextId := db.nextId + 1 }, r)

/-- The reservation row that one hold-loop iteration inserts (the argument
    of manager.save in the loop body). -/
def newHold (nid seatId : Nat) (userId : String) (expiresAt : Nat) : Reservation :=
  { id := nid, seatId := seatId, userId := userId,
    status := ReservationStatus.PENDING, expiresAt := expiresAt }

/-- manager.save of a freshly created Sale. -/
def insertSale (db : Db) (seatId : Nat) (userId : String)
    (reservationId amount paidAt : Nat) : Db × Sale :=
  let s : Sale :=
    { id := db.nextId, seatId := seatId, userId := userId,
      reservationId := reservationId, amount := amount, paidAt := paidAt }
  ({ db with sales := db.sales ++ [s], nextId := db.nextId + 1 }, s)

/-- Line 125 of the service: new Date(Date.now() + this.reservationTtl * 1000).
    Date.now() counts integer milliseconds, the TTL is configured in seconds. -/
def computeExpiresAt (nowMs ttlSeconds : Nat) : Nat :=
  nowMs + ttlSeconds * 1000

/-- Code-point comparison of two character lists, the order used by the
    JavaScript default Array.prototype.sort() string comparison. -/
def charListLt : List Char → List Char → Bool
  | [], [] => false
  | [], _ :: _ => true
  | _ :: _, [] => false
  | a :: as, b :: bs =>
    if a.toNat < b.toNat then true
    else if b.toNat < a.toNat then false
    else charListLt as bs

/-- Lexicographic less-or-equal on seat labels. -/
def labelLe (a b : String) : Bool :=
  !(charListLt b.data a.data)

/-- Insertion of a label into a sorted list of labels. -/
def insertLabel (x : String) : List String → List String
  | [] => [x]
  | y :: ys => if labelLe x y then x :: y :: ys else y :: insertLabel x ys

/-- The sort on line 104 of the service:
    const sortedSeatNumbers = [...dto.seatNumbers].sort(). -/
def sortLabels : List String → List String
  | [] => []
  | x :: xs => insertLabel x (sortLabels xs)

/-- One row of the ReservationResponseDto list returned by createReservation
    (createdAt omitted like the other bookkeeping timestamps). -/
structure ReservationResponse where
  id : Nat
  seatId : Nat
  seatNumber : String
  userId : String
  status : ReservationStatus
  expiresAt : Nat
deriving DecidableEq, Repr

/-- The per-seat loop of createReservation: lock the seat by session and
    label (NOT_FOUND when absent, CONFLICT when not AVAILABLE), set it
    RESERVED, insert a PENDING reservation with the shared expiresAt and
    collect the response row.  The loop sees its own earlier writes. -/
def createHoldLoop (sessionId : Nat) (userId : String) (expiresAt : Nat) :
    Db → List ReservationResponse → List String →
    Except SvcError (Db × List ReservationResponse)
  | db, acc, [] => Except.ok (db, acc)
  | db, acc, seatNumber :: rest =>
    match findSeatByNumber db sessionId seatNumber with
    | none => Except.error (SvcError.seatNotFoundInSession seatNumber sessionId)
    | some seat =>
      if seat.status ≠ SeatStatus.AVAILABLE then
        Except.error (SvcError.seatNotAvailable seatNumber seat.status)
      else
        let db1 := { db with seats := setSeatStatus db.seats seat.id SeatStatus.RESERVED }
        let (db2, r) := insertReservation db1 seat.id userId expiresAt
        createHoldLoop sessionId userId expiresAt db2
          (acc ++ [{ id := r.id, seatId := seat.id, seatNumber := seat.seatNumber,
                     userId := r.userId, status := r.status, expiresAt := r.expiresAt }])
          rest

/-- ReservationsService.createReservation: sort the labels, look up the
    session, then run the per-seat loop inside one transaction. -/
def createReservation (db : Db) (nowMs ttlSeconds sessionId : Nat)
    (seatNumbers : List String) (userId : String) :
    Except SvcError (Db × List ReservationResponse) :=
  let sorted := sortLabels seatNumbers
  match findSession db sessionId with
  | none => Except.error (SvcError.sessionNotFound sessionId)
  | some _ =>
    createHoldLoop sessionId userId (computeExpiresAt nowMs ttlSeconds) db [] sorted

/-- The try/catch around createReservation: on any error the transaction is
    rolled back, leaving the store as it was. -/
def createRun (db : Db) (nowMs ttlSeconds sessionId : Nat)
    (seatNumbers : List String) (userId : String) :
    Db × Except SvcError (List ReservationResponse) :=
  match createReservation db nowMs ttlSeconds sessionId seatNumbers userId with
  | Except.ok (db', out) => (db', Except.ok out)
  | Except.error e => (db, Except.error e)

/-- SaleResponseDto as assembled by confirmPayment. -/
structure SaleResponse where
  id : Nat
  seatId : Nat
  seatNumber : String
  userId : String
  reservationId : Nat
  amount : Nat
  movieName : String
  sessionStartTime : Nat
  roomNumber : String
  paidAt : Nat
deriving DecidableEq, Repr

/-- Assembly of the response DTO from a sale row and its joined seat and
    session rows. -/
def mkSaleResponse (sale : Sale) (seat : Seat) (sess : MovieSession) : SaleResponse :=
  { id := sale.id, seatId := sale.seatId, seatNumber := seat.seatNumber,
    userId := sale.userId, reservationId := sale.reservationId,
    amount := sale.amount, movieName := sess.movieName,
    sessionStartTime := sess.startTime, roomNumber := sess.roomNumber,
    paidAt := sale.paidAt }

/-- The booking-group query of confirmPayment (lines 262-271): every
    reservation with the target's userId and expiresAt, still PENDING, inner
    joined with its seat (constrained to the target's sessionId) and that
    seat's session.  Rows whose joins fail are dropped, as an inner join
    does. -/
def bookingGroup (db : Db) (userId : String) (sessionId expiresAt : Nat) :
    List (Reservation × Seat × MovieSession) :=
  db.reservations.filterMap (fun r =>
    if r.userId == userId && r.expiresAt == expiresAt &&
        r.status == ReservationStatus.PENDING then
      match findSeatById db r.seatId with
      | some seat =>
        if seat.sessionId == sessionId then
          match findSession db seat.sessionId with
          | some sess => some (r, seat, sess)
          | none => none
        else none
      | none => none
    else none)

/-- The group-confirmation loop of confirmPayment (lines 281-301): for each
    sibling set the reservation CONFIRMED, set its seat SOLD and insert a
    sale with the joined session's ticketPrice and the shared paidAt. -/
def confirmGroupLoop (paidAt : Nat) :
    Db → List Sale → List (Reservation × Seat × MovieSession) → Db × List Sale
  | db, sales, [] => (db, sales)
  | db, sales, (r, seat, sess) :: rest =>
    let db1 := { db with
      reservations := setReservationStatus db.reservations r.id ReservationStatus.CONFIRMED }
    let db2 := { db1 with seats := setSeatStatus db1.seats seat.id SeatStatus.SOLD }
    let (db3, sale) := insertSale db2 seat.id r.userId r.id sess.ticketPrice paidAt
    confirmGroupLoop paidAt db3 (sales ++ [sale]) rest

/-- ReservationsService.confirmPayment: lock the target reservation joined
    with seat and session constrained to the userId; short-circuit when it is
    already CONFIRMED (returning the existing sale, or failing when the sale
    is missing); reject non-PENDING and expired holds; otherwise confirm the
    whole booking group and return the sale of the requested reservation,
    reloaded with its relations. -/
def confirmPayment (db : Db) (now reservationId : Nat) (userId : String) :
    Except SvcError (Db × SaleResponse) :=
  match findReservationByIdAndUser db reservationId userId with
  | none => Except.error (SvcError.reservationNotFound reservationId)
  | some r =>
    match findSeatById db r.seatId with
    | none => Except.error (SvcError.reservationNotFound reservationId)
    | some seat =>
      match findSession db seat.sessionId with
      | none => Except.error (SvcError.reservationNotFound reservationId)
      | some _ =>
        if r.status = ReservationStatus.CONFIRMED then
          match findSaleByReservation db r.id with
          | none => Except.error SvcError.confirmedButSaleMissing
          | some sale =>
            match findSeatById db sale.seatId with
            | none => Except.error SvcError.internalError
            | some sseat =>
              match findSession db sseat.sessionId with
              | none => Except.error SvcError.internalError
              | some ssess => Except.ok (db, mkSaleResponse sale sseat ssess)
        else if r.status ≠ ReservationStatus.PENDING then
          Except.error (SvcError.reservationNotPending r.status)
        else if r.expiresAt < now then
          Except.error SvcError.reservationExpired
        else
          let group := bookingGroup db r.userId seat.sessionId r.expiresAt
          let (db', sales) := confirmGroupLoop now db [] group
          match sales.find? (fun s => s.reservationId == r.id) with
          | none => Except.error SvcError.internalError
          | some primary =>
            match findSaleById db' primary.id with
            | none => Except.error SvcError.internalError
            | some reloaded =>
              match findSeatById db' reloaded.seatId with
              | none => Except.error SvcError.internalError
              | some rseat =>
                match findSession db' rseat.sessionId with
                | none => Except.error SvcError.internalError
                | some rsess => Except.ok (db', mkSaleResponse reloaded rseat rsess)

/-- The try/catch around confirmPayment: on any error the transaction is
    rolled back, leaving the store as it was. -/
def confirmRun (db : Db) (now reservationId : Nat) (userId : String) :
    Db × Except SvcError SaleResponse :=
  match confirmPayment db now reservationId userId with
  | Except.ok (db', out) => (db', Except.ok out)
  | Except.error e => (db, Except.error e)

/-- ReservationsService.expireReservation: lock the reservation joined with
    its seat; commit empty when the row is absent, the status is not PENDING
    or the TTL has not passed; otherwise set the reservation EXPIRED and the
    seat AVAILABLE.  The inner join yields no row when the seat is missing,
    which the code treats as reservation-not-found. -/
def expireReservation (db : Db) (now reservationId : Nat) : Db :=
  match findReservationById db reservationId with
  | none => db
  | some r =>
    match findSeatById db r.seatId with
    | none => db
    | some seat =>
      if r.status ≠ ReservationStatus.PENDING then db
      else if now ≤ r.expiresAt then db
      else
        { db with
          seats := setSeatStatus db.seats seat.id SeatStatus.AVAILABLE,
          reservations := setReservationStatus db.reservations r.id ReservationStatus.EXPIRED }

/-- The seat that an Expire call may touch: the seat referenced by the
    named reservation, when that reservation exists. -/
def expTargetSeat (db : Db) (reservationId : Nat) : Option Nat :=
  (findReservationById db reservationId).map (fun r => r.seatId)

/-! Retry utility (src/utils/retry.util.ts). -/

/-- RetryOptions, with retryableErrors as the list of instanceof checks. -/
structure RetryOptions (ε : Type) where
  maxAttempts : Nat
  initialDelayMs : Nat
  maxDelayMs : Nat
  backoffMultiplier : Nat
  retryableErrors : List (ε → Bool)

/-- The defaultOptions constant of retry.util.ts. -/
def defaultOptions (ε : Type) : RetryOptions ε :=
  { maxAttempts := 3, initialDelayMs := 100, maxDelayMs := 5000,
    backoffMultiplier := 2, retryableErrors := [] }

/-- An error is rethrown without retry exactly when retryableErrors is
    non-empty and no listed class matches. -/
def isRetryable (opts : RetryOptions ε) (e : ε) : Bool :=
  opts.retryableErrors.isEmpty || opts.retryableErrors.any (fun c => c e)

/-- Line 65: min(initialDelayMs * backoffMultiplier ^ (attempt - 1), maxDelayMs). -/
def backoffDelay (opts : RetryOptions ε) (attempt : Nat) : Nat :=
  min (opts.initialDelayMs * opts.backoffMultiplier ^ (attempt - 1)) opts.maxDelayMs

/-- The attempt loop of retryWithBackoff.  outcomes n is the result of the
    n-th invocation of fn (attempts numbered from 1); remaining counts the
    attempts still allowed after the current one (the source throws when
    attempt >= maxAttempts).  Returns the final result and the list of
    backoff delays actually slept. -/
def retryGo (opts : RetryOptions ε) (outcomes : Nat → Except ε α) :
    Nat → Nat → List Nat → Except ε α × List Nat
  | attempt, remaining, delays =>
    match outcomes attempt with
    | Except.ok a => (Except.ok a, delays)
    | Except.error e =>
      if !isRetryable opts e then (Except.error e, delays)
      else
        match remaining with
        | 0 => (Except.error e, delays)
        | r + 1 => retryGo opts outcomes (attempt + 1) r (delays ++ [backoffDelay opts attempt])

/-- retryWithBackoff (assuming maxAttempts >= 1, as every configuration in
    the repository has). -/
def retryWithBackoff (opts : RetryOptions ε) (outcomes : Nat → Except ε α) :
    Except ε α × List Nat :=
  retryGo opts outcomes 1 (opts.maxAttempts - 1) []

/-- The store-level error kinds of spec section 4.1, used to exercise the
    retry wrapper. -/
inductive StoreErrorKind
  | STORE_CONFLICT
  | STORE_NOT_FOUND
deriving DecidableEq, Repr

/-! Batch processor (src/utils/batch-processor.util.ts) and the expiration
    consumer's processFn (reservations.consumer.ts). -/

/-- The settled outcome of one expireReservation call inside the batch. -/
inductive ExpireOutcome
  | fulfilled
  | rejected
deriving DecidableEq, Repr

/-- Broker acknowledgement actions: channel.ack and
    channel.nack(msg, false, true). -/
inductive AckAction
  | ack
  | nackRequeue
deriving DecidableEq, Repr

/-- The processFn installed by handleReservationExpire: Promise.allSettled
    over the per-message expire calls, then throw iff any of them was
    rejected. -/
def expireBatchThrows (results : List ExpireOutcome) : Bool :=
  results.any (fun r => r == ExpireOutcome.rejected)

/-- BatchProcessor.flush: when processFn resolves, ack every message of the
    batch; when it throws, nack every message of the batch with requeue. -/
def flushAcks (results : List ExpireOutcome) : List AckAction :=
  if expireBatchThrows results then results.map (fun _ => AckAction.nackRequeue)
  else results.map (fun _ => AckAction.ack)

/-- Modelled from the spec (section 4.5), for comparison with flushAcks:
    acknowledgement per message, keyed to that message's own outcome. -/
def specPerMessageAcks (results : List ExpireOutcome) : List AckAction :=
  results.map (fun r =>
    if r == ExpireOutcome.fulfilled then AckAction.ack else AckAction.nackRequeue)

/-! Invariants (spec section 8) and store wellformedness. -/

/-- Number of PENDING reservations referencing a seat. -/
def pendingCount (rs : List Reservation) (seatId : Nat) : Nat :=
  rs.countP (fun r => r.seatId == seatId && r.status == ReservationStatus.PENDING)

/-- Number of CONFIRMED reservations referencing a seat. -/
def confirmedCount (rs : List Reservation) (seatId : Nat) : Nat :=
  rs.countP (fun r => r.seatId == seatId && r.status == ReservationStatus.CONFIRMED)

/-- Number of sales referencing a reservation. -/
def saleCountFor (ss : List Sale) (reservationId : Nat) : Nat :=
  ss.countP (fun s => s.reservationId == reservationId)

/-- Spec section 8, universal invariants 1-3, exactly as stated there:
    an AVAILABLE seat has no PENDING reservation; a RESERVED seat has
    exactly one PENDING reservation; a SOLD seat has exactly one CONFIRMED
    reservation and exactly one sale referencing that reservation. -/
def seatSpecInv (db : Db) (s : Seat) : Bool :=
  match s.status with
  | SeatStatus.AVAILABLE => pendingCount db.reservations s.id == 0
  | SeatStatus.RESERVED => pendingCount db.reservations s.id == 1
  | SeatStatus.SOLD =>
      confirmedCount db.reservations s.id == 1 &&
      db.reservations.all (fun r =>
        !(r.seatId == s.id && r.status == ReservationStatus.CONFIRMED) ||
        saleCountFor db.sales r.id == 1)

/-- The literal three-clause invariant of the claim, over all seats. -/
def specInv (db : Db) : Bool :=
  db.seats.all (seatSpecInv db)

/-- The strengthened per-seat clause: additionally no CONFIRMED reservation
    on an AVAILABLE or RESERVED seat and no PENDING reservation on a SOLD
    seat. -/
def seatFullInv (db : Db) (s : Seat) : Bool :=
  match s.status with
  | SeatStatus.AVAILABLE =>
      pendingCount db.reservations s.id == 0 && confirmedCount db.reservations s.id == 0
  | SeatStatus.RESERVED =>
      pendingCount db.reservations s.id == 1 && confirmedCount db.reservations s.id == 0
  | SeatStatus.SOLD =>
      pendingCount db.reservations s.id == 0 &&
      confirmedCount db.reservations s.id == 1 &&
      db.reservations.all (fun r =>
        !(r.seatId == s.id && r.status == ReservationStatus.CONFIRMED) ||
        saleCountFor db.sales r.id == 1)

/-- The strengthened (inductive) consistency invariant: the strengthened
    seat clauses, every sale referencing an existing CONFIRMED reservation,
    and distinct sales referencing distinct reservations. -/
def FullInv (db : Db) : Prop :=
  (∀ s ∈ db.seats, seatFullInv db s = true) ∧
  (∀ sl ∈ db.sales, ∃ r ∈ db.reservations,
      r.id = sl.reservationId ∧ r.status = ReservationStatus.CONFIRMED) ∧
  (∀ sl ∈ db.sales, saleCountFor db.sales sl.reservationId = 1)

/-- Structural wellformedness of the store: primary keys are unique,
    generated ids stay below the generator, and the reservation-to-seat
    foreign key always resolves. -/
def WfDb (db : Db) : Prop :=
  (db.reservations.map (fun r => r.id)).Nodup ∧
  (db.seats.map (fun s => s.id)).Nodup ∧
  (db.sales.map (fun s => s.id)).Nodup ∧
  (∀ r ∈ db.reservations, r.id < db.nextId) ∧
  (∀ s ∈ db.sales, s.id < db.nextId) ∧
  (∀ r ∈ db.reservations, (findSeatById db r.seatId).isSome)

instance (db : Db) : Decidable (FullInv db) := by
  unfold FullInv
  exact inferInstance

instance (db : Db) : Decidable (WfDb db) := by
  unfold WfDb
  exact inferInstance

/-- The sale rows inserted for a booking group, one per sibling in group
    order with consecutive generated ids. -/
def groupSales (paidAt : Nat) : Nat → List (Reservation × Seat × MovieSession) → List Sale
  | _, [] => []
  | nid, (r, seat, sess) :: rest =>
      { id := nid, seatId := seat.id, userId := r.userId, reservationId := r.id,
        amount := sess.ticketPrice, paidAt := paidAt } :: groupSales paidAt (nid + 1) rest

/-- Reservation ids of a booking group. -/
def gResIds (g : List (Reservation × Seat × MovieSession)) : List Nat :=
  g.map (fun t => t.1.id)

/-- Pointwise form of the reservation updates performed by the
    group-confirmation loop. -/
def confirmResUpdate (gids : List Nat) (r : Reservation) : Reservation :=
  if gids.contains r.id then { r with status := ReservationStatus.CONFIRMED } else r

/-- Pointwise form of the seat updates performed by the group-confirmation
    loop. -/
def confirmSeatUpdate (sids : List Nat) (s : Seat) : Seat :=
  if sids.contains s.id then { s with status := SeatStatus.SOLD } else s

/-- Seat ids of a booking group. -/
def gSeatIds (g : List (Reservation × Seat × MovieSession)) : List Nat :=
  g.map (fun t => t.2.1.id)

/-- The committed store of a successful group confirmation expressed in
    batch form: group reservations CONFIRMED, group seats SOLD, one sale
    appended per sibling. -/
def confirmEffect (db : Db) (now : Nat)
    (g : List (Reservation × Seat × MovieSession)) : Db :=
  { sessions := db.sessions,
    seats := db.seats.map (confirmSeatUpdate (gSeatIds g)),
    reservations := db.reservations.map (confirmResUpdate (gResIds g)),
    sales := db.sales ++ groupSales now db.nextId g,
    nextId := db.nextId + g.length }

/-! Concrete stores used by counterexamples and witnesses. -/

/-- A screening with ticket price 10. -/
def exSession : MovieSession :=
  { id := 0, movieName := "M", startTime := 0, roomNumber := "R", ticketPrice := 10 }

/-- A fresh store: one screening, seats A1 and A2 available. -/
def exDb : Db :=
  { sessions := [exSession],
    seats := [ { id := 1, seatNumber := "A1", status := SeatStatus.AVAILABLE, sessionId := 0 },
               { id := 2, seatNumber := "A2", status := SeatStatus.AVAILABLE, sessionId := 0 } ],
    reservations := [],
    sales := [],
    nextId := 10 }

/-- The store after one two-seat hold by u1 (expiresAt 31000):
    exactly the committed state of createRun exDb 1000 30 0 [A1, A2] u1. -/
def exDbHeld : Db :=
  { sessions := [exSession],
    seats := [ { id := 1, seatNumber := "A1", status := SeatStatus.RESERVED, sessionId := 0 },
               { id := 2, seatNumber := "A2", status := SeatStatus.RESERVED, sessionId := 0 } ],
    reservations :=
      [ { id := 10, seatId := 1, userId := "u1",
          status := ReservationStatus.PENDING, expiresAt := 31000 },
        { id := 11, seatId := 2, userId := "u1",
          status := ReservationStatus.PENDING, expiresAt := 31000 } ],
    sales := [],
    nextId := 12 }

/-- A store satisfying the literal three-clause invariant but not the
    strengthened one: seat 1 is SOLD with its CONFIRMED reservation 10 and
    sale 100, while a stray PENDING reservation 11 of user u also references
    seat 1. -/
def cexDbLit : Db :=
  { sessions := [exSession],
    seats := [ { id := 1, seatNumber := "A1", status := SeatStatus.SOLD, sessionId := 0 } ],
    reservations :=
      [ { id := 10, seatId := 1, userId := "v",
          status := ReservationStatus.CONFIRMED, expiresAt := 500 },
        { id := 11, seatId := 1, userId := "u",
          status := ReservationStatus.PENDING, expiresAt := 1000 } ],
    sales := [ { id := 100, seatId := 1, userId := "v", reservationId := 10,
                 amount := 10, paidAt := 300 } ],
    nextId := 200 }

/-! Helper lemmas. -/

theorem find?_map_comm {α : Type} (f : α → α) (p : α → Bool)
    (hp : ∀ a, p (f a) = p a) :
    ∀ l : List α, (l.map f).find? p = (l.find? p).map f := by
  intro l
  induction l with
  | nil => simp
  | cons a l ih =>
    cases h : p a with
    | true =>
      rw [List.map_cons, List.find?_cons_of_pos _ ((hp a).trans h),
        List.find?_cons_of_pos _ h]
      rfl
    | false =>
      rw [List.map_cons, List.find?_cons_of_neg _ (by simp [hp a, h]),
        List.find?_cons_of_neg _ (by simp [h]), ih]

theorem setReservationStatus_id (i : Nat) (st : ReservationStatus) (r : Reservation) :
    (if r.id = i then { r with status := st } else r).id = r.id := by
  by_cases h : r.id = i <;> simp [h]

theorem setSeatStatus_id (i : Nat) (st : SeatStatus) (s : Seat) :
    (if s.id = i then { s with status := st } else s).id = s.id := by
  by_cases h : s.id = i <;> simp [h]

theorem findReservationById_key (db : Db) (rid : Nat) (r : Reservation)
    (h : findReservationById db rid = some r) : r.id = rid := by
  unfold findReservationById at h
  have hb := @List.find?_some Reservation (fun x => x.id == rid) r db.reservations h
  exact eq_of_beq hb

theorem findReservationById_mem (db : Db) (rid : Nat) (r : Reservation)
    (h : findReservationById db rid = some r) : r ∈ db.reservations := by
  unfold findReservationById at h
  exact List.mem_of_find?_eq_some h

theorem findSeatById_key (db : Db) (sid : Nat) (s : Seat)
    (h : findSeatById db sid = some s) : s.id = sid := by
  unfold findSeatById at h
  have hb := @List.find?_some Seat (fun x => x.id == sid) s db.seats h
  exact eq_of_beq hb

theorem findSeatById_mem (db : Db) (sid : Nat) (s : Seat)
    (h : findSeatById db sid = some s) : s ∈ db.seats := by
  unfold findSeatById at h
  exact List.mem_of_find?_eq_some h

theorem findReservation_setStatus (rs : List Reservation) (i k : Nat)
    (st : ReservationStatus) :
    (setReservationStatus rs i st).find? (fun r => r.id == k)
      = (rs.find? (fun r => r.id == k)).map
          (fun r => if r.id = i then { r with status := st } else r) := by
  unfold setReservationStatus
  exact find?_map_comm _ _ (fun r => by rw [setReservationStatus_id]) rs

theorem findSeat_setStatus (seats : List Seat) (i k : Nat) (st : SeatStatus) :
    (setSeatStatus seats i st).find? (fun s => s.id == k)
      = (seats.find? (fun s => s.id == k)).map
          (fun s => if s.id = i then { s with status := st } else s) := by
  unfold setSeatStatus
  exact find?_map_comm _ _ (fun s => by rw [setSeatStatus_id]) seats

/-- expireReservation applied on its own result is a no-op. -/
theorem expireReservation_twice (db : Db) (now rid : Nat) :
    expireReservation (expireReservation db now rid) now rid
      = expireReservation db now rid := by
  rcases hr : findReservationById db rid with _ | r
  · have h1 : expireReservation db now rid = db := by
      unfold expireReservation; simp only [hr]
    rw [h1, h1]
  rcases hs : findSeatById db r.seatId with _ | seat
  · have h1 : expireReservation db now rid = db := by
      unfold expireReservation; simp only [hr, hs]
    rw [h1, h1]
  by_cases hp : r.status = ReservationStatus.PENDING
  · by_cases ht : now ≤ r.expiresAt
    · have h1 : expireReservation db now rid = db := by
        unfold expireReservation; simp only [hr, hs]; simp [hp, ht]
      rw [h1, h1]
    · -- the state actually changes; the second call sees EXPIRED and no-ops
      have hrid : r.id = rid := findReservationById_key db rid r hr
      have h1 : expireReservation db now rid =
          { db with
            seats := setSeatStatus db.seats seat.id SeatStatus.AVAILABLE,
            reservations := setReservationStatus db.reservations r.id ReservationStatus.EXPIRED } := by
        unfold expireReservation; simp only [hr, hs]; simp [hp, ht]
      rw [h1]
      have h2 : findReservationById
          { db with
            seats := setSeatStatus db.seats seat.id SeatStatus.AVAILABLE,
            reservations := setReservationStatus db.reservations r.id ReservationStatus.EXPIRED }
          rid = some { r with status := ReservationStatus.EXPIRED } := by
        unfold findReservationById at hr ⊢
        show (setReservationStatus db.reservations r.id ReservationStatus.EXPIRED).find?
            (fun x => x.id == rid) = _
        rw [findReservation_setStatus, hr]
        simp [hrid]
      unfold expireReservation
      simp only [h2]
      rcases hfs : findSeatById _ _ with _ | s2
      · simp only [hfs]
      · simp only [hfs]
        simp
  · have h1 : expireReservation db now rid = db := by
      unfold expireReservation; simp only [hr, hs]; simp [hp]
    rw [h1, h1]

/-- C3: Expire(reservationId) sets the reservation EXPIRED and its seat
    AVAILABLE exactly when the reservation row (with its seat) exists, is
    PENDING and its deadline has strictly passed; in every other case it
    commits with no state change; and iterating it any positive number of
    times yields the state of a single application. -/
theorem expireReservation_idempotent (db : Db) (now rid : Nat) :
    (∀ r seat, findReservationById db rid = some r →
        findSeatById db r.seatId = some seat →
        r.status = ReservationStatus.PENDING → r.expiresAt < now →
        expireReservation db now rid =
          { db with
            seats := setSeatStatus db.seats seat.id SeatStatus.AVAILABLE,
            reservations := setReservationStatus db.reservations r.id ReservationStatus.EXPIRED })
    ∧ (findReservationById db rid = none → expireReservation db now rid = db)
    ∧ (∀ r, findReservationById db rid = some r →
        (r.status ≠ ReservationStatus.PENDING ∨ now ≤ r.expiresAt ∨
          findSeatById db r.seatId = none) →
        expireReservation db now rid = db)
    ∧ (∀ n, 1 ≤ n →
        (fun d => expireReservation d now rid)^[n] db = expireReservation db now rid) := by
  refine ⟨?_, ?_, ?_, ?_⟩
  · intro r seat hr hs hp ht
    unfold expireReservation
    simp only [hr, hs]
    simp [hp, Nat.not_le.mpr ht]
  · intro hr
    unfold expireReservation
    simp only [hr]
  · intro r hr hcase
    rcases hcase with hp | ht | hs
    · rcases hs : findSeatById db r.seatId with _ | seat
      · unfold expireReservation; simp only [hr, hs]
      · unfold expireReservation; simp only [hr, hs]; simp [hp]
    · rcases hs : findSeatById db r.seatId with _ | seat
      · unfold expireReservation; simp only [hr, hs]
      · unfold expireReservation; simp only [hr, hs]
        by_cases hp : r.status = ReservationStatus.PENDING <;> simp [hp, ht]
    · unfold expireReservation; simp only [hr, hs]
  · intro n hn
    induction n with
    | zero => omega
    | succ m ih =>
      rcases Nat.eq_or_lt_of_le hn with h1 | h1
      · rw [← h1]
        simp
      · have hm : 1 ≤ m := by omega
        rw [Function.iterate_succ_apply', ih hm, expireReservation_twice]

/-- C10: every invocation of Expire touches at most the named reservation's
    status and that reservation's own seat's status; sessions, sales, the id
    generator, every other reservation and every other seat are unchanged on
    the expiring path and on all no-op paths, and even the touched rows keep
    every field other than status. -/
theorem expireReservation_frame (db : Db) (now rid : Nat) :
    (expireReservation db now rid).sessions = db.sessions ∧
    (expireReservation db now rid).sales = db.sales ∧
    (expireReservation db now rid).nextId = db.nextId ∧
    List.Forall₂ (fun r r' : Reservation =>
        r'.id = r.id ∧ r'.seatId = r.seatId ∧ r'.userId = r.userId ∧
        r'.expiresAt = r.expiresAt ∧ (r.id ≠ rid → r' = r))
      db.reservations (expireReservation db now rid).reservations ∧
    List.Forall₂ (fun s s' : Seat =>
        s'.id = s.id ∧ s'.seatNumber = s.seatNumber ∧ s'.sessionId = s.sessionId ∧
        (expTargetSeat db rid ≠ some s.id → s' = s))
      db.seats (expireReservation db now rid).seats := by
  have hrefl : expireReservation db now rid = db →
      (expireReservation db now rid).sessions = db.sessions ∧
      (expireReservation db now rid).sales = db.sales ∧
      (expireReservation db now rid).nextId = db.nextId ∧
      List.Forall₂ (fun r r' : Reservation =>
          r'.id = r.id ∧ r'.seatId = r.seatId ∧ r'.userId = r.userId ∧
          r'.expiresAt = r.expiresAt ∧ (r.id ≠ rid → r' = r))
        db.reservations (expireReservation db now rid).reservations ∧
      List.Forall₂ (fun s s' : Seat =>
          s'.id = s.id ∧ s'.seatNumber = s.seatNumber ∧ s'.sessionId = s.sessionId ∧
          (expTargetSeat db rid ≠ some s.id → s' = s))
        db.seats (expireReservation db now rid).seats := by
    intro h
    rw [h]
    refine ⟨rfl, rfl, rfl, ?_, ?_⟩
    · exact List.forall₂_same.2 (fun r _ => ⟨rfl, rfl, rfl, rfl, fun _ => rfl⟩)
    · exact List.forall₂_same.2 (fun s _ => ⟨rfl, rfl, rfl, fun _ => rfl⟩)
  rcases hr : findReservationById db rid with _ | r
  · exact hrefl (by unfold expireReservation; simp only [hr])
  rcases hs : findSeatById db r.seatId with _ | seat
  · exact hrefl (by unfold expireReservation; simp only [hr, hs])
  by_cases hp : r.status = ReservationStatus.PENDING
  · by_cases ht : now ≤ r.expiresAt
    · exact hrefl (by unfold expireReservation; simp only [hr, hs]; simp [hp, ht])
    · have hrid : r.id = rid := findReservationById_key db rid r hr
      have hseat : seat.id = r.seatId := findSeatById_key db r.seatId seat hs
      have h1 : expireReservation db now rid =
          { db with
            seats := setSeatStatus db.seats seat.id SeatStatus.AVAILABLE,
            reservations := setReservationStatus db.reservations r.id ReservationStatus.EXPIRED } := by
        unfold expireReservation; simp only [hr, hs]; simp [hp, ht]
      rw [h1]
      refine ⟨rfl, rfl, rfl, ?_, ?_⟩
      · show List.Forall₂ _ db.reservations
          (db.reservations.map
            (fun x => if x.id = r.id then { x with status := ReservationStatus.EXPIRED } else x))
        rw [List.forall₂_map_right_iff]
        refine List.forall₂_same.2 (fun x _ => ?_)
        by_cases hx : x.id = r.id
        · rw [if_pos hx]
          exact ⟨rfl, rfl, rfl, rfl, fun hne => absurd (hx.trans hrid) hne⟩
        · rw [if_neg hx]
          exact ⟨rfl, rfl, rfl, rfl, fun _ => rfl⟩
      · show List.Forall₂ _ db.seats
          (db.seats.map
            (fun x => if x.id = seat.id then { x with status := SeatStatus.AVAILABLE } else x))
        rw [List.forall₂_map_right_iff]
        refine List.forall₂_same.2 (fun x _ => ?_)
        by_cases hx : x.id = seat.id
        · rw [if_pos hx]
          refine ⟨rfl, rfl, rfl, fun hne => ?_⟩
          unfold expTargetSeat at hne
          rw [hr] at hne
          have hxr : r.seatId = x.id := by rw [hx, hseat]
          exact absurd hxr (by simpa using hne)
        · rw [if_neg hx]
          exact ⟨rfl, rfl, rfl, fun _ => rfl⟩
  · exact hrefl (by unfold expireReservation; simp only [hr, hs]; simp [hp])

/-- Concrete instantiation of the expiry characterization: in the held
    store, expiring reservation 10 at time 40000 marks it EXPIRED and frees
    seat 1. -/
theorem expireReservation_idempotent_witness :
    expireReservation exDbHeld 40000 10 =
      { exDbHeld with
        seats := setSeatStatus exDbHeld.seats 1 SeatStatus.AVAILABLE,
        reservations := setReservationStatus exDbHeld.reservations 10 ReservationStatus.EXPIRED } :=
  (expireReservation_idempotent exDbHeld 40000 10).1
    { id := 10, seatId := 1, userId := "u1",
      status := ReservationStatus.PENDING, expiresAt := 31000 }
    { id := 1, seatNumber := "A1", status := SeatStatus.RESERVED, sessionId := 0 }
    (by decide) (by decide) (by decide) (by decide)

/-! Create Hold: failure atomicity and duplicate labels. -/

theorem insertLabel_perm (x : String) (l : List String) :
    (insertLabel x l).Perm (x :: l) := by
  induction l with
  | nil => exact List.Perm.refl _
  | cons y ys ih =>
    unfold insertLabel
    by_cases h : labelLe x y
    · rw [if_pos h]
    · rw [if_neg h]
      exact (ih.cons y).trans (List.Perm.swap x y ys)

theorem sortLabels_perm (l : List String) : (sortLabels l).Perm l := by
  induction l with
  | nil => exact List.Perm.refl _
  | cons x xs ih => exact (insertLabel_perm x (sortLabels xs)).trans (ih.cons x)

/-- The seat-by-number lookup commutes with a status update. -/
theorem findSeatByNumber_setStatus (seats : List Seat) (sid : Nat) (n : String)
    (i : Nat) (st : SeatStatus) :
    (setSeatStatus seats i st).find? (fun s => s.sessionId == sid && s.seatNumber == n)
      = (seats.find? (fun s => s.sessionId == sid && s.seatNumber == n)).map
          (fun s => if s.id = i then { s with status := st } else s) := by
  unfold setSeatStatus
  refine find?_map_comm _ _ (fun s => ?_) seats
  by_cases h : s.id = i <;> simp [h]

/-- Every error thrown inside the per-seat loop is a seat NOT_FOUND or a
    seat CONFLICT. -/
theorem createHoldLoop_error (sid : Nat) (uid : String) (exp : Nat) :
    ∀ (labels : List String) (db : Db) (acc : List ReservationResponse) (e : SvcError),
      createHoldLoop sid uid exp db acc labels = Except.error e →
      (∃ n, e = SvcError.seatNotFoundInSession n sid) ∨
      (∃ n st, e = SvcError.seatNotAvailable n st) := by
  intro labels
  induction labels with
  | nil => intro db acc e h; exact absurd h (by unfold createHoldLoop; simp)
  | cons x rest ih =>
    intro db acc e h
    unfold createHoldLoop at h
    rcases hfind : findSeatByNumber db sid x with _ | seat
    · simp only [hfind] at h
      injection h with h
      exact Or.inl ⟨x, h.symm⟩
    · simp only [hfind] at h
      by_cases hav : seat.status ≠ SeatStatus.AVAILABLE
      · rw [if_pos hav] at h
        injection h with h
        exact Or.inr ⟨x, seat.status, h.symm⟩
      · rw [if_neg hav] at h
        exact ih _ _ _ h

/-- Unfolding equation for one successful iteration of the per-seat loop. -/
theorem createHoldLoop_cons_avail (sid : Nat) (uid : String) (exp : Nat)
    (db : Db) (acc : List ReservationResponse) (y : String) (rest : List String)
    (sy : Seat) (hfy : findSeatByNumber db sid y = some sy)
    (hav : ¬ sy.status ≠ SeatStatus.AVAILABLE) :
    createHoldLoop sid uid exp db acc (y :: rest)
      = createHoldLoop sid uid exp
          (insertReservation
            { db with seats := setSeatStatus db.seats sy.id SeatStatus.RESERVED }
            sy.id uid exp).1
          (acc ++ [{ id := db.nextId, seatId := sy.id, seatNumber := sy.seatNumber,
                     userId := uid, status := ReservationStatus.PENDING, expiresAt := exp }])
          rest := by
  conv_lhs => rw [createHoldLoop.eq_def]
  simp only [hfy]
  rw [if_neg hav]
  rfl

/-- Once some still-to-be-processed label resolves to a non-AVAILABLE
    seat, the loop is bound to throw. -/
theorem createHoldLoop_bad_seat (sid : Nat) (uid : String) (exp : Nat) :
    ∀ (labels : List String) (db : Db) (acc : List ReservationResponse)
      (x : String) (s : Seat), x ∈ labels →
      findSeatByNumber db sid x = some s → s.status ≠ SeatStatus.AVAILABLE →
      ∃ e, createHoldLoop sid uid exp db acc labels = Except.error e := by
  intro labels
  induction labels with
  | nil => intro db acc x s hx; exact absurd hx (List.not_mem_nil x)
  | cons y rest ih =>
    intro db acc x s hx hfind hbad
    rcases hfy : findSeatByNumber db sid y with _ | sy
    · exact ⟨SvcError.seatNotFoundInSession y sid,
        by unfold createHoldLoop; simp only [hfy]⟩
    by_cases hav : sy.status ≠ SeatStatus.AVAILABLE
    · exact ⟨SvcError.seatNotAvailable y sy.status,
        by unfold createHoldLoop; simp only [hfy]; rw [if_pos hav]⟩
    rcases List.mem_cons.1 hx with hxy | hxr
    · subst hxy
      rw [hfind] at hfy
      cases hfy
      exact absurd hav (by simp [hbad])
    · have hfind2 : findSeatByNumber
          (insertReservation
            { db with seats := setSeatStatus db.seats sy.id SeatStatus.RESERVED }
            sy.id uid exp).1 sid x
          = some (if s.id = sy.id then { s with status := SeatStatus.RESERVED } else s) := by
        show (setSeatStatus db.seats sy.id SeatStatus.RESERVED).find? _ = _
        rw [findSeatByNumber_setStatus]
        unfold findSeatByNumber at hfind
        rw [hfind]
        rfl
      have hbad2 : (if s.id = sy.id then { s with status := SeatStatus.RESERVED } else s).status
          ≠ SeatStatus.AVAILABLE := by
        by_cases hid : s.id = sy.id <;> simp [hid, hbad]
      rw [createHoldLoop_cons_avail sid uid exp db acc y rest sy hfy hav]
      exact ih _ _ x _ hxr hfind2 hbad2

/-- A label list containing a duplicate makes the loop throw: the first
    occurrence marks the seat RESERVED inside the transaction, and the
    second occurrence then reads it as not AVAILABLE. -/
theorem createHoldLoop_dup (sid : Nat) (uid : String) (exp : Nat) :
    ∀ (labels : List String) (db : Db) (acc : List ReservationResponse),
      ¬ labels.Nodup →
      ∃ e, createHoldLoop sid uid exp db acc labels = Except.error e := by
  intro labels
  induction labels with
  | nil => intro db acc h; exact absurd List.nodup_nil h
  | cons y rest ih =>
    intro db acc hdup
    rcases hfy : findSeatByNumber db sid y with _ | sy
    · exact ⟨SvcError.seatNotFoundInSession y sid,
        by unfold createHoldLoop; simp only [hfy]⟩
    by_cases hav : sy.status ≠ SeatStatus.AVAILABLE
    · exact ⟨SvcError.seatNotAvailable y sy.status,
        by unfold createHoldLoop; simp only [hfy]; rw [if_pos hav]⟩
    rw [createHoldLoop_cons_avail sid uid exp db acc y rest sy hfy hav]
    by_cases hy : y ∈ rest
    · have hfind2 : findSeatByNumber
          (insertReservation
            { db with seats := setSeatStatus db.seats sy.id SeatStatus.RESERVED }
            sy.id uid exp).1 sid y
          = some (if sy.id = sy.id then { sy with status := SeatStatus.RESERVED } else sy) := by
        show (setSeatStatus db.seats sy.id SeatStatus.RESERVED).find? _ = _
        rw [findSeatByNumber_setStatus]
        unfold findSeatByNumber at hfy
        rw [hfy]
        rfl
      rw [if_pos rfl] at hfind2
      exact createHoldLoop_bad_seat sid uid exp rest _ _ y _ hy hfind2 (by simp)
    · have hnd : ¬ rest.Nodup := fun hn => hdup (List.nodup_cons.2 ⟨hy, hn⟩)
      exact ih _ _ hnd

/-- C5: any per-seat failure of Create Hold - session absent (NOT_FOUND),
    seat absent (NOT_FOUND) or seat not AVAILABLE (CONFLICT) - rolls the
    whole transaction back: the committed store is exactly the initial one,
    no partial hold survives, and those are the only error shapes. -/
theorem createReservation_failure_atomic (db : Db) (now ttl sid : Nat)
    (labels : List String) (uid : String) (db' : Db) (e : SvcError)
    (h : createRun db now ttl sid labels uid = (db', Except.error e)) :
    db' = db ∧
    (e = SvcError.sessionNotFound sid ∨
      (∃ n, e = SvcError.seatNotFoundInSession n sid) ∨
      (∃ n st, e = SvcError.seatNotAvailable n st)) ∧
    (e.kind = ErrorKind.NOT_FOUND ∨ e.kind = ErrorKind.CONFLICT) := by
  unfold createRun at h
  rcases hc : createReservation db now ttl sid labels uid with e' | ⟨dbp, outp⟩
  · simp only [hc, Prod.mk.injEq, Except.error.injEq] at h
    rcases h with ⟨hdb, he⟩
    subst hdb
    subst he
    have hshape : e' = SvcError.sessionNotFound sid ∨
        (∃ n, e' = SvcError.seatNotFoundInSession n sid) ∨
        (∃ n st, e' = SvcError.seatNotAvailable n st) := by
      unfold createReservation at hc
      rcases hs : findSession db sid with _ | sess
      · simp only [hs] at hc
        injection hc with hc
        exact Or.inl hc.symm
      · simp only [hs] at hc
        exact Or.inr (createHoldLoop_error sid uid (computeExpiresAt now ttl) _ _ _ _ hc)
    refine ⟨rfl, hshape, ?_⟩
    rcases hshape with h1 | ⟨n, h1⟩ | ⟨n, st, h1⟩ <;> subst h1 <;> simp [SvcError.kind]
  · simp [hc] at h

/-- Concrete instantiation of failure atomicity: holding A1 and A3 fails
    (A3 does not exist) and commits nothing. -/
theorem createReservation_failure_atomic_witness :
    (createRun exDb 1000 30 0 ["A1", "A3"] "u1").1 = exDb ∧
    ((createRun exDb 1000 30 0 ["A1", "A3"] "u1").2
      = Except.error (SvcError.seatNotFoundInSession "A3" 0)) :=
  ⟨(createReservation_failure_atomic exDb 1000 30 0 ["A1", "A3"] "u1" exDb
      (SvcError.seatNotFoundInSession "A3" 0) rfl).1, rfl⟩

/-- C6 counterexample: a request repeating label A1 on a fresh store is
    rejected with the per-seat CONFLICT error - the second occurrence reads
    the seat it just reserved as RESERVED - not with INVALID_REQUEST, so no
    deduplication happens before locking. -/
theorem duplicate_labels_conflict_cex :
    createRun exDb 1000 30 0 ["A1", "A1"] "u1"
        = (exDb, Except.error (SvcError.seatNotAvailable "A1" SeatStatus.RESERVED)) ∧
    (SvcError.seatNotAvailable "A1" SeatStatus.RESERVED).kind = ErrorKind.CONFLICT ∧
    (SvcError.seatNotAvailable "A1" SeatStatus.RESERVED).kind ≠ ErrorKind.INVALID_REQUEST := by
  exact ⟨rfl, rfl, by decide⟩

/-- C6 amended: a Create Hold request whose seatLabels list contains two
    identical labels always fails - the duplicate is not removed, the error
    is never INVALID_REQUEST (the seat CONFLICT or a NOT_FOUND surfaces
    instead) - and no reservation is created for the request. -/
theorem duplicate_labels_rejected (db : Db) (now ttl sid : Nat)
    (labels : List String) (uid : String) (hdup : ¬ labels.Nodup) :
    ∃ e, createRun db now ttl sid labels uid = (db, Except.error e) ∧
      e.kind ≠ ErrorKind.INVALID_REQUEST := by
  have hdup2 : ¬ (sortLabels labels).Nodup := by
    intro h
    exact hdup (((sortLabels_perm labels).nodup_iff).1 h)
  have herr : ∃ e, createReservation db now ttl sid labels uid = Except.error e := by
    unfold createReservation
    rcases hs : findSession db sid with _ | sess
    · exact ⟨SvcError.sessionNotFound sid, rfl⟩
    · exact createHoldLoop_dup sid uid (computeExpiresAt now ttl) _ db [] hdup2
  rcases herr with ⟨e, he⟩
  have hkind : e.kind ≠ ErrorKind.INVALID_REQUEST := by
    unfold createReservation at he
    rcases hs : findSession db sid with _ | sess
    · simp only [hs] at he
      injection he with he
      rw [← he]
      simp [SvcError.kind]
    · simp only [hs] at he
      rcases createHoldLoop_error sid uid (computeExpiresAt now ttl) _ _ _ _ he with
        ⟨n, h1⟩ | ⟨n, st, h1⟩ <;> subst h1 <;> simp [SvcError.kind]
  refine ⟨e, ?_, hkind⟩
  unfold createRun
  rw [he]

/-- Concrete instantiation of the duplicate-label rejection. -/
theorem duplicate_labels_rejected_witness :
    ¬ (["A2", "A2"] : List String).Nodup ∧
    ∃ e, createRun exDb 1000 30 0 ["A2", "A2"] "u1" = (exDb, Except.error e) ∧
      e.kind ≠ ErrorKind.INVALID_REQUEST :=
  ⟨by decide, duplicate_labels_rejected exDb 1000 30 0 ["A2", "A2"] "u1" (by decide)⟩

/-! Retry with backoff (C7) and batch acknowledgement (C8). -/

/-- C7 counterexample: under the defaults of retry.util.ts a block failing
    with STORE_CONFLICT at every attempt is given 3 attempts in total and
    the backoff delays actually slept are 100 ms and 200 ms - the claimed
    third 400 ms delay never happens (the third attempt is the last and
    throws), and the default delay cap is 5000 ms, not 2000 ms. -/
theorem retry_schedule_cex :
    retryWithBackoff (defaultOptions StoreErrorKind)
        (fun _ => (Except.error StoreErrorKind.STORE_CONFLICT : Except StoreErrorKind Nat))
      = (Except.error StoreErrorKind.STORE_CONFLICT, [100, 200]) ∧
    ([100, 200] : List Nat) ≠ [100, 200, 400] ∧
    (defaultOptions StoreErrorKind).maxDelayMs = 5000 ∧
    (defaultOptions StoreErrorKind).maxDelayMs ≠ 2000 := by
  exact ⟨rfl, by decide, rfl, by decide⟩

/-- C7 amended: retryWithBackoff makes at most maxAttempts (default 3)
    invocations; with the defaults an always-failing block is surfaced after
    attempt 3 having slept 100 ms and then 200 ms (never 400 ms, cap
    5000 ms); a block that succeeds at attempt 2 is retried after a single
    100 ms delay; and when a retryableErrors filter is supplied, an error it
    does not match is surfaced at once with no delay.  The reservation
    service never wraps its transactional blocks in this helper, so its own
    errors surface unretried. -/
theorem retryGo_step_ok (ε α : Type) (opts : RetryOptions ε) (outcomes : Nat → Except ε α)
    (attempt remaining : Nat) (delays : List Nat) (a : α)
    (h : outcomes attempt = Except.ok a) :
    retryGo opts outcomes attempt remaining delays = (Except.ok a, delays) := by
  rw [retryGo.eq_def]
  simp only [h]

theorem retryGo_step_noretry (ε α : Type) (opts : RetryOptions ε)
    (outcomes : Nat → Except ε α) (attempt remaining : Nat) (delays : List Nat) (e : ε)
    (h : outcomes attempt = Except.error e) (hnr : isRetryable opts e = false) :
    retryGo opts outcomes attempt remaining delays = (Except.error e, delays) := by
  rw [retryGo.eq_def]
  simp only [h, hnr, Bool.not_false, if_true]

theorem retryGo_step_retry (ε α : Type) (opts : RetryOptions ε)
    (outcomes : Nat → Except ε α) (attempt r : Nat) (delays : List Nat) (e : ε)
    (h : outcomes attempt = Except.error e) (hr : isRetryable opts e = true) :
    retryGo opts outcomes attempt (r + 1) delays
      = retryGo opts outcomes (attempt + 1) r (delays ++ [backoffDelay opts attempt]) := by
  rw [retryGo.eq_def]
  simp only [h, hr, Bool.not_true, Bool.false_eq_true, if_false]

theorem retryGo_step_exhausted (ε α : Type) (opts : RetryOptions ε)
    (outcomes : Nat → Except ε α) (attempt : Nat) (delays : List Nat) (e : ε)
    (h : outcomes attempt = Except.error e) (hr : isRetryable opts e = true) :
    retryGo opts outcomes attempt 0 delays = (Except.error e, delays) := by
  rw [retryGo.eq_def]
  simp only [h, hr, Bool.not_true, Bool.false_eq_true, if_false]

theorem defaultOptions_retryable (ε : Type) (e : ε) :
    isRetryable (defaultOptions ε) e = true := by
  simp [isRetryable, defaultOptions]

theorem retry_backoff_behavior (ε α : Type) (outcomes : Nat → Except ε α) (e : ε) :
    ((∀ n, outcomes n = Except.error e) →
      retryWithBackoff (defaultOptions ε) outcomes = (Except.error e, [100, 200])) ∧
    (∀ a, outcomes 1 = Except.error e → outcomes 2 = Except.ok a →
      retryWithBackoff (defaultOptions ε) outcomes = (Except.ok a, [100])) ∧
    (∀ opts : RetryOptions ε, outcomes 1 = Except.error e →
      isRetryable opts e = false →
      retryWithBackoff opts outcomes = (Except.error e, [])) := by
  refine ⟨?_, ?_, ?_⟩
  · intro h
    have he : outcomes = fun _ => Except.error e := funext h
    subst he
    rfl
  · intro a h1 h2
    unfold retryWithBackoff
    have hma : (defaultOptions ε).maxAttempts - 1 = 1 + 1 := rfl
    rw [hma]
    rw [retryGo_step_retry ε α _ outcomes 1 1 [] e h1 (defaultOptions_retryable ε e)]
    rw [retryGo_step_ok ε α _ outcomes 2 1 _ a h2]
    rfl
  · intro opts h1 hnr
    unfold retryWithBackoff
    exact retryGo_step_noretry ε α opts outcomes 1 (opts.maxAttempts - 1) [] e h1 hnr

/-- Concrete instantiation of the retry behaviour: with the default (empty)
    retryableErrors filter even a NOT_FOUND-style store error is retried,
    sleeping 100 ms and 200 ms. -/
theorem retry_backoff_behavior_witness :
    retryWithBackoff (defaultOptions StoreErrorKind)
        (fun _ => (Except.error StoreErrorKind.STORE_NOT_FOUND : Except StoreErrorKind Nat))
      = (Except.error StoreErrorKind.STORE_NOT_FOUND, [100, 200]) :=
  (retry_backoff_behavior StoreErrorKind Nat
      (fun _ => Except.error StoreErrorKind.STORE_NOT_FOUND)
      StoreErrorKind.STORE_NOT_FOUND).1 (fun _ => rfl)

/-- C8 counterexample: a batch whose expire calls settle as one fulfilled
    and one rejected nacks BOTH messages - the successful message is
    re-queued too - while the claimed per-message rule would ack the first
    and requeue only the second. -/
theorem batch_ack_mixed_cex :
    flushAcks [ExpireOutcome.fulfilled, ExpireOutcome.rejected]
        = [AckAction.nackRequeue, AckAction.nackRequeue] ∧
    specPerMessageAcks [ExpireOutcome.fulfilled, ExpireOutcome.rejected]
        = [AckAction.ack, AckAction.nackRequeue] ∧
    flushAcks [ExpireOutcome.fulfilled, ExpireOutcome.rejected]
        ≠ specPerMessageAcks [ExpireOutcome.fulfilled, ExpireOutcome.rejected] := by
  exact ⟨rfl, rfl, by decide⟩

/-- C8 amended: acknowledgement of an expiration batch is all-or-nothing:
    when every expire call succeeded, every message is acked (agreeing with
    the per-message rule); when at least one failed, every message of the
    batch - the successes included - is nacked with requeue; one action is
    produced per message. -/
theorem batch_ack_all_or_nothing (results : List ExpireOutcome) :
    (expireBatchThrows results = false →
      flushAcks results = specPerMessageAcks results ∧
      ∀ a ∈ flushAcks results, a = AckAction.ack) ∧
    (expireBatchThrows results = true →
      ∀ a ∈ flushAcks results, a = AckAction.nackRequeue) ∧
    (flushAcks results).length = results.length := by
  refine ⟨?_, ?_, ?_⟩
  · intro h
    have hall : ∀ r ∈ results, r = ExpireOutcome.fulfilled := by
      intro r hr
      cases r with
      | fulfilled => rfl
      | rejected =>
        exfalso
        have : expireBatchThrows results = true := by
          unfold expireBatchThrows
          exact List.any_eq_true.2 ⟨ExpireOutcome.rejected, hr, rfl⟩
        rw [this] at h
        cases h
    constructor
    · unfold flushAcks specPerMessageAcks
      rw [h]
      simp only [Bool.false_eq_true, if_false]
      refine List.map_congr_left (fun r hr => ?_)
      rw [hall r hr]
      rfl
    · intro a ha
      unfold flushAcks at ha
      rw [h] at ha
      simp only [Bool.false_eq_true, if_false] at ha
      rcases List.mem_map.1 ha with ⟨r, _, hr⟩
      exact hr.symm
  · intro h a ha
    unfold flushAcks at ha
    rw [h] at ha
    simp only [if_true] at ha
    rcases List.mem_map.1 ha with ⟨r, _, hr⟩
    exact hr.symm
  · unfold flushAcks
    by_cases h : expireBatchThrows results = true <;> simp [h]

/-- Concrete instantiation of the all-or-nothing acknowledgement: a fully
    successful batch of two messages acks both. -/
theorem batch_ack_all_or_nothing_witness :
    flushAcks [ExpireOutcome.fulfilled, ExpireOutcome.fulfilled]
      = specPerMessageAcks [ExpireOutcome.fulfilled, ExpireOutcome.fulfilled] :=
  ((batch_ack_all_or_nothing [ExpireOutcome.fulfilled, ExpireOutcome.fulfilled]).1 rfl).1

/-! Booking-group fingerprint resolution (C9). -/

/-- C9 counterexample: two distinct Create Hold calls in the same
    millisecond (hence in the same second) by user u1 for screening 0
    produce reservations 10 and 11 with the SAME expiresAt of 31000, and
    confirming reservation 10 then also confirms reservation 11 - the
    sibling lookup merges the two requests into one booking group. -/
theorem expiresAt_collision_cex :
    (createRun exDb 1000 30 0 ["A1"] "u1").2
        = Except.ok [{ id := 10, seatId := 1, seatNumber := "A1", userId := "u1",
                       status := ReservationStatus.PENDING, expiresAt := 31000 }] ∧
    (createRun (createRun exDb 1000 30 0 ["A1"] "u1").1 1000 30 0 ["A2"] "u1").2
        = Except.ok [{ id := 11, seatId := 2, seatNumber := "A2", userId := "u1",
                       status := ReservationStatus.PENDING, expiresAt := 31000 }] ∧
    findReservationById
        (confirmRun
          (createRun (createRun exDb 1000 30 0 ["A1"] "u1").1 1000 30 0 ["A2"] "u1").1
          2000 10 "u1").1 11
      = some { id := 11, seatId := 2, userId := "u1",
               status := ReservationStatus.CONFIRMED, expiresAt := 31000 } := by
  exact ⟨rfl, rfl, rfl⟩

/-- Responses committed by the per-seat loop all carry the shared
    expiresAt. -/
theorem createHoldLoop_expiresAt (sid : Nat) (uid : String) (exp : Nat) :
    ∀ (labels : List String) (db : Db) (acc : List ReservationResponse)
      (db' : Db) (out : List ReservationResponse),
      createHoldLoop sid uid exp db acc labels = Except.ok (db', out) →
      (∀ resp ∈ acc, resp.expiresAt = exp) →
      ∀ resp ∈ out, resp.expiresAt = exp := by
  intro labels
  induction labels with
  | nil =>
    intro db acc db' out h hacc
    unfold createHoldLoop at h
    simp only [Except.ok.injEq, Prod.mk.injEq] at h
    rw [← h.2]
    exact hacc
  | cons y rest ih =>
    intro db acc db' out h hacc
    rcases hfy : findSeatByNumber db sid y with _ | sy
    · exfalso
      unfold createHoldLoop at h
      simp only [hfy] at h
      exact Except.noConfusion h
    by_cases hav : sy.status ≠ SeatStatus.AVAILABLE
    · exfalso
      unfold createHoldLoop at h
      simp only [hfy] at h
      rw [if_pos hav] at h
      exact Except.noConfusion h
    · rw [createHoldLoop_cons_avail sid uid exp db acc y rest sy hfy hav] at h
      refine ih _ _ _ _ h ?_
      intro resp hresp
      rcases List.mem_append.1 hresp with h1 | h1
      · exact hacc _ h1
      · rw [List.mem_singleton.1 h1]

/-- C9 amended: expiresAt is computed as Date.now() + ttl * 1000 with
    millisecond resolution, not sub-millisecond: two holds observing
    distinct millisecond clock values always get distinct expiresAt, and
    every reservation committed by one hold carries exactly the shared
    value computeExpiresAt now ttl - but two holds inside the same
    millisecond collide (the counterexample shows Confirm then merges
    them). -/
theorem expiresAt_millisecond_resolution (n1 n2 ttl : Nat) (hne : n1 ≠ n2) :
    computeExpiresAt n1 ttl ≠ computeExpiresAt n2 ttl ∧
    (∀ (db : Db) (sid : Nat) (labels : List String) (uid : String)
        (db' : Db) (out : List ReservationResponse),
      createRun db n1 ttl sid labels uid = (db', Except.ok out) →
      ∀ resp ∈ out, resp.expiresAt = computeExpiresAt n1 ttl) := by
  constructor
  · unfold computeExpiresAt
    omega
  · intro db sid labels uid db' out h resp hresp
    unfold createRun at h
    rcases hc : createReservation db n1 ttl sid labels uid with e' | ⟨dbp, outp⟩
    · simp [hc] at h
    · simp only [hc, Prod.mk.injEq, Except.ok.injEq] at h
      rcases h with ⟨hdb, hout⟩
      subst hout
      unfold createReservation at hc
      rcases hs : findSession db sid with _ | sess
      · simp [hs] at hc
      · simp only [hs] at hc
        exact createHoldLoop_expiresAt sid uid (computeExpiresAt n1 ttl)
          (sortLabels labels) db [] dbp outp hc
          (fun r hr => absurd hr (List.not_mem_nil r)) resp hresp

/-- Concrete instantiation of millisecond resolution: holds at clock values
    1000 and 1001 get different deadlines. -/
theorem expiresAt_millisecond_resolution_witness :
    computeExpiresAt 1000 30 ≠ computeExpiresAt 1001 30 :=
  (expiresAt_millisecond_resolution 1000 1001 30 (by decide)).1

/-! Infrastructure for the confirm-payment characterization. -/

theorem find?_eq_of_unique {α : Type} (p : α → Bool) :
    ∀ (l : List α) (x : α), x ∈ l → p x = true → l.countP p = 1 →
      l.find? p = some x := by
  intro l
  induction l with
  | nil => intro x hx; exact absurd hx (List.not_mem_nil x)
  | cons a t ih =>
    intro x hx hpx hcount
    rw [List.countP_cons] at hcount
    cases hpa : p a with
    | true =>
      rw [List.find?_cons_of_pos _ hpa]
      have ht : t.countP p = 0 := by
        rw [if_pos hpa] at hcount
        omega
      rcases List.mem_cons.1 hx with h1 | h1
      · rw [h1]
      · exact absurd hpx (List.countP_eq_zero.1 ht x h1)
    | false =>
      rw [List.find?_cons_of_neg _ (by simp [hpa])]
      rcases List.mem_cons.1 hx with h1 | h1
      · subst h1
        rw [hpx] at hpa
        cases hpa
      · refine ih x h1 hpx ?_
        rw [if_neg (by simp [hpa])] at hcount
        omega

theorem find?_id_of_mem_nodupRes :
    ∀ (l : List Reservation), (l.map (fun r => r.id)).Nodup →
      ∀ x ∈ l, l.find? (fun r => r.id == x.id) = some x := by
  intro l
  induction l with
  | nil => intro _ x hx; exact absurd hx (List.not_mem_nil x)
  | cons a t ih =>
    intro hnd x hx
    rw [List.map_cons, List.nodup_cons] at hnd
    rcases List.mem_cons.1 hx with h1 | h1
    · rw [h1]
      exact List.find?_cons_of_pos _ (by simp)
    · have hne : (a.id == x.id) = false := by
        by_cases h : a.id = x.id
        · exact absurd (h ▸ List.mem_map.2 ⟨x, h1, rfl⟩) hnd.1
        · simp [h]
      rw [List.find?_cons_of_neg _ (by simp [hne])]
      exact ih hnd.2 x h1

theorem map_filterMap_sublist {α β : Type} (f : α → Option β) (g : β → α)
    (hfg : ∀ a b, f a = some b → g b = a) :
    ∀ l : List α, ((l.filterMap f).map g).Sublist l := by
  intro l
  induction l with
  | nil => simp
  | cons a t ih =>
    rcases hfa : f a with _ | b
    · rw [List.filterMap_cons_none hfa]
      exact ih.cons a
    · rw [List.filterMap_cons_some hfa, List.map_cons, hfg a b hfa]
      exact ih.cons₂ a

/-- Every sale inserted for a group carries the shared paidAt, the group
    member's ids and the member's ticket price, and the generated sale ids
    are exactly the next consecutive block. -/
theorem groupSales_mem_inv (paidAt : Nat) :
    ∀ (g : List (Reservation × Seat × MovieSession)) (nid : Nat)
      (sl : Sale), sl ∈ groupSales paidAt nid g →
      sl.paidAt = paidAt ∧ nid ≤ sl.id ∧
      ∃ t ∈ g, sl.reservationId = t.1.id ∧ sl.seatId = t.2.1.id ∧
        sl.amount = t.2.2.ticketPrice := by
  intro g
  induction g with
  | nil => intro nid sl h; exact absurd h (List.not_mem_nil sl)
  | cons t rest ih =>
    intro nid sl h
    rcases t with ⟨r, seat, sess⟩
    rcases List.mem_cons.1 h with h1 | h1
    · rw [h1]
      exact ⟨rfl, Nat.le_refl nid, ⟨(r, seat, sess), List.mem_cons_self _ _, rfl, rfl, rfl⟩⟩
    · rcases ih (nid + 1) sl h1 with ⟨hp, hid, t', ht', hprops⟩
      exact ⟨hp, by omega, t', List.mem_cons_of_mem _ ht', hprops⟩

/-- Each group member owns one inserted sale. -/
theorem groupSales_exists (paidAt : Nat) :
    ∀ (g : List (Reservation × Seat × MovieSession)) (nid : Nat)
      (t : Reservation × Seat × MovieSession), t ∈ g →
      ∃ sl ∈ groupSales paidAt nid g, sl.reservationId = t.1.id ∧
        sl.seatId = t.2.1.id ∧ sl.amount = t.2.2.ticketPrice ∧ sl.paidAt = paidAt := by
  intro g
  induction g with
  | nil => intro nid t ht; exact absurd ht (List.not_mem_nil t)
  | cons u rest ih =>
    intro nid t ht
    rcases u with ⟨r, seat, sess⟩
    rcases List.mem_cons.1 ht with h1 | h1
    · subst h1
      exact ⟨_, List.mem_cons_self _ _, rfl, rfl, rfl, rfl⟩
    · rcases ih (nid + 1) t h1 with ⟨sl, hsl, hprops⟩
      exact ⟨sl, List.mem_cons_of_mem _ hsl, hprops⟩

/-- The inserted sales reference group reservations with the multiplicity
    of the group. -/
theorem groupSales_countP (paidAt : Nat) :
    ∀ (g : List (Reservation × Seat × MovieSession)) (nid k : Nat),
      (groupSales paidAt nid g).countP (fun s => s.reservationId == k)
        = g.countP (fun t => t.1.id == k) := by
  intro g
  induction g with
  | nil => intro nid k; rfl
  | cons u rest ih =>
    intro nid k
    rcases u with ⟨r, seat, sess⟩
    show List.countP _ (_ :: groupSales paidAt (nid + 1) rest) = _
    rw [List.countP_cons, List.countP_cons, ih (nid + 1) k]

/-- The generated sale ids are the consecutive block starting at the id
    generator. -/
theorem groupSales_map_id (paidAt : Nat) :
    ∀ (g : List (Reservation × Seat × MovieSession)) (nid : Nat),
      (groupSales paidAt nid g).map (fun s => s.id) = List.range' nid g.length := by
  intro g
  induction g with
  | nil => intro nid; rfl
  | cons u rest ih =>
    intro nid
    rcases u with ⟨r, seat, sess⟩
    show nid :: (groupSales paidAt (nid + 1) rest).map (fun s => s.id) = _
    rw [ih (nid + 1), List.length_cons, List.range'_succ]

/-- Inversion of membership in the booking-group query. -/
theorem bookingGroup_mem (db : Db) (uid : String) (sid exp : Nat)
    (t : Reservation × Seat × MovieSession)
    (ht : t ∈ bookingGroup db uid sid exp) :
    t.1 ∈ db.reservations ∧ t.1.userId = uid ∧ t.1.expiresAt = exp ∧
    t.1.status = ReservationStatus.PENDING ∧
    findSeatById db t.1.seatId = some t.2.1 ∧ t.2.1.sessionId = sid ∧
    findSession db sid = some t.2.2 := by
  rcases List.mem_filterMap.1 ht with ⟨r, hr, heq⟩
  by_cases hc : (r.userId == uid && r.expiresAt == exp &&
      r.status == ReservationStatus.PENDING) = true
  · rw [if_pos hc] at heq
    rcases hfs : findSeatById db r.seatId with _ | st
    · simp only [hfs] at heq
      exact Option.noConfusion heq
    · simp only [hfs] at heq
      by_cases hsid : (st.sessionId == sid) = true
      · rw [if_pos hsid] at heq
        rcases hsess : findSession db st.sessionId with _ | ss
        · simp only [hsess] at heq
          exact Option.noConfusion heq
        · simp only [hsess] at heq
          injection heq with heq
          subst heq
          simp only [Bool.and_eq_true, beq_iff_eq] at hc hsid
          refine ⟨hr, hc.1.1, hc.1.2, hc.2, hfs, hsid, ?_⟩
          rw [← hsid]
          exact hsess
      · rw [if_neg hsid] at heq
        cases heq
  · rw [if_neg hc] at heq
    cases heq

/-- Completeness of the booking-group query: every PENDING reservation with
    the fingerprint whose joins resolve is listed. -/
theorem bookingGroup_complete (db : Db) (uid : String) (sid exp : Nat)
    (r : Reservation) (seat : Seat) (sess : MovieSession)
    (hr : r ∈ db.reservations) (hu : r.userId = uid) (he : r.expiresAt = exp)
    (hp : r.status = ReservationStatus.PENDING)
    (hs : findSeatById db r.seatId = some seat)
    (hsid : seat.sessionId = sid) (hsess : findSession db sid = some sess) :
    (r, seat, sess) ∈ bookingGroup db uid sid exp := by
  refine List.mem_filterMap.2 ⟨r, hr, ?_⟩
  rw [if_pos (by simp [hu, he, hp])]
  simp only [hs]
  rw [if_pos (by simp [hsid])]
  rw [hsid]
  simp only [hsess]

/-- The first component of a booking-group entry is the underlying
    reservation row. -/
theorem bookingGroup_fst (db : Db) (uid : String) (sid exp : Nat) :
    ∀ (r : Reservation) (t : Reservation × Seat × MovieSession),
      (if r.userId == uid && r.expiresAt == exp &&
          r.status == ReservationStatus.PENDING then
        match findSeatById db r.seatId with
        | some seat =>
          if seat.sessionId == sid then
            match findSession db seat.sessionId with
            | some sess => some (r, seat, sess)
            | none => none
          else none
        | none => none
      else none) = some t → t.1 = r := by
  intro r t heq
  by_cases hc : (r.userId == uid && r.expiresAt == exp &&
      r.status == ReservationStatus.PENDING) = true
  · rw [if_pos hc] at heq
    rcases hfs : findSeatById db r.seatId with _ | st
    · simp only [hfs] at heq
      exact Option.noConfusion heq
    · simp only [hfs] at heq
      by_cases hsid : (st.sessionId == sid) = true
      · rw [if_pos hsid] at heq
        rcases hsess : findSession db st.sessionId with _ | ss
        · simp only [hsess] at heq
          exact Option.noConfusion heq
        · simp only [hsess] at heq
          injection heq with heq
          rw [← heq]
      · rw [if_neg hsid] at heq; cases heq
  · rw [if_neg hc] at heq; cases heq

/-- Under unique reservation ids the group lists pairwise distinct
    reservation ids. -/
theorem bookingGroup_nodup (db : Db) (uid : String) (sid exp : Nat)
    (hnd : (db.reservations.map (fun r => r.id)).Nodup) :
    (gResIds (bookingGroup db uid sid exp)).Nodup := by
  have hsub : ((bookingGroup db uid sid exp).map (fun t => t.1)).Sublist db.reservations := by
    unfold bookingGroup
    exact map_filterMap_sublist _ _ (fun a b h => bookingGroup_fst db uid sid exp a b h) _
  have : (gResIds (bookingGroup db uid sid exp)).Sublist (db.reservations.map (fun r => r.id)) := by
    have := hsub.map (fun r => r.id)
    rw [List.map_map] at this
    exact this
  exact this.nodup hnd

/-- Unfolding equation for one iteration of the group-confirmation loop. -/
theorem confirmGroupLoop_cons (paidAt : Nat) (db : Db) (acc : List Sale)
    (r : Reservation) (seat : Seat) (sess : MovieSession)
    (rest : List (Reservation × Seat × MovieSession)) :
    confirmGroupLoop paidAt db acc ((r, seat, sess) :: rest)
      = confirmGroupLoop paidAt
          { sessions := db.sessions,
            seats := setSeatStatus db.seats seat.id SeatStatus.SOLD,
            reservations := setReservationStatus db.reservations r.id ReservationStatus.CONFIRMED,
            sales := db.sales ++ [{ id := db.nextId, seatId := seat.id, userId := r.userId,
                                    reservationId := r.id, amount := sess.ticketPrice,
                                    paidAt := paidAt }],
            nextId := db.nextId + 1 }
          (acc ++ [{ id := db.nextId, seatId := seat.id, userId := r.userId,
                     reservationId := r.id, amount := sess.ticketPrice, paidAt := paidAt }])
          rest := by
  conv_lhs => rw [confirmGroupLoop.eq_def]
  rfl

theorem confirmResUpdate_comp (i : Nat) (ids : List Nat) (x : Reservation) :
    confirmResUpdate ids
        (if x.id = i then { x with status := ReservationStatus.CONFIRMED } else x)
      = confirmResUpdate (i :: ids) x := by
  unfold confirmResUpdate
  by_cases h : x.id = i
  · simp [h]
  · simp only [if_neg h]
    have : ((i :: ids).contains x.id) = (ids.contains x.id) := by
      simp [List.contains_cons, h]
    rw [this]

theorem confirmSeatUpdate_comp (i : Nat) (ids : List Nat) (x : Seat) :
    confirmSeatUpdate ids
        (if x.id = i then { x with status := SeatStatus.SOLD } else x)
      = confirmSeatUpdate (i :: ids) x := by
  unfold confirmSeatUpdate
  by_cases h : x.id = i
  · simp [h]
  · simp only [if_neg h]
    have : ((i :: ids).contains x.id) = (ids.contains x.id) := by
      simp [List.contains_cons, h]
    rw [this]

/-- Batch characterization of the group-confirmation loop: its final store
    marks exactly the group's reservations CONFIRMED and the group's seats
    SOLD, appends one sale per sibling with consecutive generated ids, and
    touches nothing else. -/
theorem confirmGroupLoop_spec (paidAt : Nat) :
    ∀ (g : List (Reservation × Seat × MovieSession)) (db : Db) (acc : List Sale),
      (confirmGroupLoop paidAt db acc g).1.sessions = db.sessions ∧
      (confirmGroupLoop paidAt db acc g).1.nextId = db.nextId + g.length ∧
      (confirmGroupLoop paidAt db acc g).1.reservations
        = db.reservations.map (confirmResUpdate (gResIds g)) ∧
      (confirmGroupLoop paidAt db acc g).1.seats
        = db.seats.map (confirmSeatUpdate (gSeatIds g)) ∧
      (confirmGroupLoop paidAt db acc g).1.sales
        = db.sales ++ groupSales paidAt db.nextId g ∧
      (confirmGroupLoop paidAt db acc g).2 = acc ++ groupSales paidAt db.nextId g := by
  intro g
  induction g with
  | nil =>
    intro db acc
    have hres : ∀ r : Reservation, confirmResUpdate (gResIds []) r = r := by
      intro r
      unfold confirmResUpdate
      rw [if_neg (by simp [gResIds])]
    have hseat : ∀ s : Seat, confirmSeatUpdate (gSeatIds []) s = s := by
      intro s
      unfold confirmSeatUpdate
      rw [if_neg (by simp [gSeatIds])]
    have hgs : groupSales paidAt db.nextId ([] : List (Reservation × Seat × MovieSession)) = [] := rfl
    refine ⟨rfl, rfl, ?_, ?_, ?_, ?_⟩
    · show db.reservations = _
      calc db.reservations = db.reservations.map id := (List.map_id _).symm
        _ = _ := List.map_congr_left (fun r _ => (hres r).symm)
    · show db.seats = _
      calc db.seats = db.seats.map id := (List.map_id _).symm
        _ = _ := List.map_congr_left (fun s _ => (hseat s).symm)
    · show db.sales = db.sales ++ groupSales paidAt db.nextId []
      rw [hgs, List.append_nil]
    · show acc = acc ++ groupSales paidAt db.nextId []
      rw [hgs, List.append_nil]
  | cons u rest ih =>
    intro db acc
    rcases u with ⟨r, seat, sess⟩
    rw [confirmGroupLoop_cons]
    rcases ih
        { sessions := db.sessions,
          seats := setSeatStatus db.seats seat.id SeatStatus.SOLD,
          reservations := setReservationStatus db.reservations r.id ReservationStatus.CONFIRMED,
          sales := db.sales ++ [{ id := db.nextId, seatId := seat.id, userId := r.userId,
                                  reservationId := r.id, amount := sess.ticketPrice,
                                  paidAt := paidAt }],
          nextId := db.nextId + 1 }
        (acc ++ [{ id := db.nextId, seatId := seat.id, userId := r.userId,
                   reservationId := r.id, amount := sess.ticketPrice, paidAt := paidAt }])
      with ⟨h1, h2, h3, h4, h5, h6⟩
    refine ⟨h1, by rw [h2]; simp [List.length_cons]; omega, ?_, ?_, ?_, ?_⟩
    · rw [h3]
      show (setReservationStatus db.reservations r.id ReservationStatus.CONFIRMED).map _ = _
      unfold setReservationStatus
      rw [List.map_map]
      refine List.map_congr_left (fun x _ => ?_)
      show confirmResUpdate (gResIds rest)
          (if x.id = r.id then { x with status := ReservationStatus.CONFIRMED } else x) = _
      rw [confirmResUpdate_comp]
      rfl
    · rw [h4]
      show (setSeatStatus db.seats seat.id SeatStatus.SOLD).map _ = _
      unfold setSeatStatus
      rw [List.map_map]
      refine List.map_congr_left (fun x _ => ?_)
      show confirmSeatUpdate (gSeatIds rest)
          (if x.id = seat.id then { x with status := SeatStatus.SOLD } else x) = _
      rw [confirmSeatUpdate_comp]
      rfl
    · rw [h5]
      show (db.sales ++ [_]) ++ groupSales paidAt (db.nextId + 1) rest = _
      rw [List.append_assoc]
      rfl
    · rw [h6]
      rw [List.append_assoc]
      rfl

theorem confirmResUpdate_id (ids : List Nat) (r : Reservation) :
    (confirmResUpdate ids r).id = r.id := by
  unfold confirmResUpdate
  by_cases h : ids.contains r.id = true
  · rw [if_pos h]
  · rw [if_neg h]

theorem confirmResUpdate_userId (ids : List Nat) (r : Reservation) :
    (confirmResUpdate ids r).userId = r.userId := by
  unfold confirmResUpdate
  by_cases h : ids.contains r.id = true
  · rw [if_pos h]
  · rw [if_neg h]

theorem confirmSeatUpdate_id (ids : List Nat) (s : Seat) :
    (confirmSeatUpdate ids s).id = s.id := by
  unfold confirmSeatUpdate
  by_cases h : ids.contains s.id = true
  · rw [if_pos h]
  · rw [if_neg h]

theorem confirmResUpdate_of_mem (ids : List Nat) (r : Reservation)
    (h : r.id ∈ ids) :
    confirmResUpdate ids r = { r with status := ReservationStatus.CONFIRMED } := by
  unfold confirmResUpdate
  rw [if_pos (by simpa using h)]

theorem confirmResUpdate_of_not_mem (ids : List Nat) (r : Reservation)
    (h : r.id ∉ ids) : confirmResUpdate ids r = r := by
  unfold confirmResUpdate
  rw [if_neg (by simpa using h)]

theorem confirmSeatUpdate_of_mem (ids : List Nat) (s : Seat)
    (h : s.id ∈ ids) :
    confirmSeatUpdate ids s = { s with status := SeatStatus.SOLD } := by
  unfold confirmSeatUpdate
  rw [if_pos (by simpa using h)]

theorem confirmSeatUpdate_of_not_mem (ids : List Nat) (s : Seat)
    (h : s.id ∉ ids) : confirmSeatUpdate ids s = s := by
  unfold confirmSeatUpdate
  rw [if_neg (by simpa using h)]

theorem findReservationByIdAndUser_inv (db : Db) (rid : Nat) (uid : String)
    (r : Reservation) (h : findReservationByIdAndUser db rid uid = some r) :
    r.id = rid ∧ r.userId = uid ∧ r ∈ db.reservations := by
  unfold findReservationByIdAndUser at h
  have hb := @List.find?_some Reservation
    (fun x => x.id == rid && x.userId == uid) r db.reservations h
  simp only [Bool.and_eq_true, beq_iff_eq] at hb
  exact ⟨hb.1, hb.2, List.mem_of_find?_eq_some h⟩

/-- The whole pair computed by the group-confirmation loop, in batch
    form. -/
theorem confirmGroupLoop_eq (now : Nat) (db : Db)
    (g : List (Reservation × Seat × MovieSession)) :
    confirmGroupLoop now db [] g
      = (confirmEffect db now g, groupSales now db.nextId g) := by
  rcases confirmGroupLoop_spec now g db [] with ⟨h1, h2, h3, h4, h5, h6⟩
  have hfst : (confirmGroupLoop now db [] g).1 = confirmEffect db now g := by
    calc (confirmGroupLoop now db [] g).1
        = { sessions := (confirmGroupLoop now db [] g).1.sessions,
            seats := (confirmGroupLoop now db [] g).1.seats,
            reservations := (confirmGroupLoop now db [] g).1.reservations,
            sales := (confirmGroupLoop now db [] g).1.sales,
            nextId := (confirmGroupLoop now db [] g).1.nextId } := rfl
      _ = confirmEffect db now g := by
          rw [h1, h2, h3, h4, h5]
          rfl
  have hsnd : (confirmGroupLoop now db [] g).2 = groupSales now db.nextId g := by
    rw [h6, List.nil_append]
  calc confirmGroupLoop now db [] g
      = ((confirmGroupLoop now db [] g).1, (confirmGroupLoop now db [] g).2) := rfl
    _ = (confirmEffect db now g, groupSales now db.nextId g) := by rw [hfst, hsnd]

/-- No committed sale references a still-PENDING reservation. -/
theorem old_sales_countP_zero (db : Db)
    (hNoPendingSale : ∀ sl ∈ db.sales, ∀ x ∈ db.reservations,
        sl.reservationId = x.id → x.status ≠ ReservationStatus.PENDING)
    (r : Reservation) (hmem : r ∈ db.reservations)
    (hP : r.status = ReservationStatus.PENDING) :
    db.sales.countP (fun sl => sl.reservationId == r.id) = 0 := by
  refine List.countP_eq_zero.2 (fun sl hsl hps => ?_)
  simp only [beq_iff_eq] at hps
  exact hNoPendingSale sl hsl r hmem hps hP

/-- The inserted sales of a group carry pairwise distinct fresh ids,
    exactly one of which references each group reservation. -/
theorem groupSales_res_countP_one (now : Nat) (db : Db)
    (g : List (Reservation × Seat × MovieSession))
    (hnd : (gResIds g).Nodup) (t : Reservation × Seat × MovieSession)
    (ht : t ∈ g) :
    (groupSales now db.nextId g).countP (fun sl => sl.reservationId == t.1.id) = 1 := by
  rw [groupSales_countP]
  have : g.countP (fun u => u.1.id == t.1.id)
      = (gResIds g).countP (fun i => i == t.1.id) := by
    unfold gResIds
    rw [List.countP_map]
    rfl
  rw [this, ← List.count_eq_countP]
  exact List.count_eq_one_of_mem hnd (List.mem_map.2 ⟨t, ht, rfl⟩)

/-- Master characterization of the pending path of confirmPayment: under a
    consistent store the call commits exactly confirmEffect and returns the
    response of the target's own freshly inserted sale. -/
theorem confirmPayment_pending_success (db : Db) (now rid : Nat) (uid : String)
    (r : Reservation) (seat : Seat) (sess : MovieSession)
    (hNodupR : (db.reservations.map (fun x => x.id)).Nodup)
    (hSaleFresh : ∀ sl ∈ db.sales, sl.id < db.nextId)
    (hNoPendingSale : ∀ sl ∈ db.sales, ∀ x ∈ db.reservations,
        sl.reservationId = x.id → x.status ≠ ReservationStatus.PENDING)
    (hR : findReservationByIdAndUser db rid uid = some r)
    (hS : findSeatById db r.seatId = some seat)
    (hSess : findSession db seat.sessionId = some sess)
    (hP : r.status = ReservationStatus.PENDING)
    (hT : ¬ r.expiresAt < now) :
    ∃ slr : Sale,
      slr ∈ groupSales now db.nextId (bookingGroup db r.userId seat.sessionId r.expiresAt) ∧
      slr.reservationId = r.id ∧ slr.seatId = seat.id ∧
      slr.amount = sess.ticketPrice ∧ slr.paidAt = now ∧
      findSaleByReservation
          (confirmEffect db now (bookingGroup db r.userId seat.sessionId r.expiresAt)) r.id
        = some slr ∧
      findSeatById
          (confirmEffect db now (bookingGroup db r.userId seat.sessionId r.expiresAt)) slr.seatId
        = some { seat with status := SeatStatus.SOLD } ∧
      findSession
          (confirmEffect db now (bookingGroup db r.userId seat.sessionId r.expiresAt))
          seat.sessionId
        = some sess ∧
      confirmPayment db now rid uid
        = Except.ok
            (confirmEffect db now (bookingGroup db r.userId seat.sessionId r.expiresAt),
             mkSaleResponse slr { seat with status := SeatStatus.SOLD } sess) := by
  rcases findReservationByIdAndUser_inv db rid uid r hR with ⟨hrid, huid, hmem⟩
  have hseatkey : seat.id = r.seatId := findSeatById_key db r.seatId seat hS
  have hrg : (r, seat, sess) ∈ bookingGroup db r.userId seat.sessionId r.expiresAt :=
    bookingGroup_complete db r.userId seat.sessionId r.expiresAt r seat sess
      hmem rfl rfl hP hS rfl hSess
  have gnodup : (gResIds (bookingGroup db r.userId seat.sessionId r.expiresAt)).Nodup :=
    bookingGroup_nodup db r.userId seat.sessionId r.expiresAt hNodupR
  rcases groupSales_exists now (bookingGroup db r.userId seat.sessionId r.expiresAt)
      db.nextId (r, seat, sess) hrg with ⟨slr, hslr, hres0, hseatid0, hamount0, hpaid⟩
  have hres : slr.reservationId = r.id := hres0
  have hseatid : slr.seatId = seat.id := hseatid0
  have hamount : slr.amount = sess.ticketPrice := hamount0
  have hcount1 : (groupSales now db.nextId
      (bookingGroup db r.userId seat.sessionId r.expiresAt)).countP
        (fun sl => sl.reservationId == r.id) = 1 :=
    groupSales_res_countP_one now db _ gnodup (r, seat, sess) hrg
  -- the reservation lookup inside the committed store
  have hfindSale : findSaleByReservation
      (confirmEffect db now (bookingGroup db r.userId seat.sessionId r.expiresAt)) r.id
      = some slr := by
    unfold findSaleByReservation confirmEffect
    refine find?_eq_of_unique _ _ slr (List.mem_append.2 (Or.inr hslr)) (by simp [hres]) ?_
    rw [List.countP_append, old_sales_countP_zero db hNoPendingSale r hmem hP, hcount1]
  have hS2 : db.seats.find? (fun s => s.id == seat.id) = some seat := by
    rw [hseatkey]
    exact hS
  have hseatmem : seat.id ∈ gSeatIds (bookingGroup db r.userId seat.sessionId r.expiresAt) := by
    unfold gSeatIds
    exact List.mem_map.2 ⟨(r, seat, sess), hrg, rfl⟩
  have hfindSeat : findSeatById
      (confirmEffect db now (bookingGroup db r.userId seat.sessionId r.expiresAt)) slr.seatId
      = some { seat with status := SeatStatus.SOLD } := by
    unfold findSeatById confirmEffect
    show (db.seats.map _).find? _ = _
    rw [find?_map_comm _ _ (fun s => by rw [confirmSeatUpdate_id]) db.seats]
    rw [hseatid]
    rw [hS2]
    show some (confirmSeatUpdate _ seat) = _
    rw [confirmSeatUpdate_of_mem _ seat hseatmem]
  have hfindSess : findSession
      (confirmEffect db now (bookingGroup db r.userId seat.sessionId r.expiresAt))
      seat.sessionId = some sess := by
    unfold findSession confirmEffect
    exact hSess
  refine ⟨slr, hslr, hres, hseatid, hamount, hpaid, hfindSale, hfindSeat, hfindSess, ?_⟩
  -- now the big evaluation of confirmPayment
  unfold confirmPayment
  simp only [hR, hS, hSess]
  rw [if_neg (by simp [hP])]
  rw [if_neg (by simp [hP])]
  rw [if_neg hT]
  rw [confirmGroupLoop_eq]
  have hprimary : (groupSales now db.nextId
      (bookingGroup db r.userId seat.sessionId r.expiresAt)).find?
        (fun s => s.reservationId == r.id) = some slr :=
    find?_eq_of_unique _ _ slr hslr (by simp [hres]) hcount1
  simp only [hprimary]
  have hreload : findSaleById
      (confirmEffect db now (bookingGroup db r.userId seat.sessionId r.expiresAt)) slr.id
      = some slr := by
    unfold findSaleById confirmEffect
    refine find?_eq_of_unique _ _ slr (List.mem_append.2 (Or.inr hslr)) (by simp) ?_
    rw [List.countP_append]
    have hold : db.sales.countP (fun sl => sl.id == slr.id) = 0 := by
      refine List.countP_eq_zero.2 (fun sl hsl hps => ?_)
      simp only [beq_iff_eq] at hps
      have h1 := hSaleFresh sl hsl
      have h2 := (groupSales_mem_inv now _ db.nextId slr hslr).2.1
      omega
    have hnew : (groupSales now db.nextId
        (bookingGroup db r.userId seat.sessionId r.expiresAt)).countP
          (fun sl => sl.id == slr.id) = 1 := by
      have hmapid := groupSales_map_id now
        (bookingGroup db r.userId seat.sessionId r.expiresAt) db.nextId
      have : (groupSales now db.nextId
          (bookingGroup db r.userId seat.sessionId r.expiresAt)).countP
            (fun sl => sl.id == slr.id)
          = ((groupSales now db.nextId
              (bookingGroup db r.userId seat.sessionId r.expiresAt)).map
                (fun s => s.id)).countP (fun i => i == slr.id) := by
        rw [List.countP_map]
        rfl
      rw [this, hmapid, ← List.count_eq_countP]
      refine List.count_eq_one_of_mem (List.nodup_range' _ _) ?_
      rw [← hmapid]
      exact List.mem_map.2 ⟨slr, hslr, rfl⟩
    rw [hold, hnew]
  simp only [hreload]
  simp only [hfindSeat]
  have hfinal : findSession
      (confirmEffect db now (bookingGroup db r.userId seat.sessionId r.expiresAt))
      ({ seat with status := SeatStatus.SOLD } : Seat).sessionId = some sess := hfindSess
  simp only [hfinal]

/-- C1: when ConfirmPayment succeeds on a PENDING target, the post-commit
    store has every reservation of the target's booking group (the PENDING
    reservations sharing the target's userId, screeningId and expiresAt,
    the target included) CONFIRMED, each group seat SOLD, exactly one sale
    per group reservation whose amount is that sibling's screening ticket
    price, and every sale is either pre-existing or carries the one shared
    paidAt; when the call fails, the store is exactly the initial one. -/
theorem confirmPayment_group_atomic (db : Db) (now rid : Nat) (uid : String)
    (r : Reservation) (seat : Seat)
    (hNodupR : (db.reservations.map (fun x => x.id)).Nodup)
    (hSaleFresh : ∀ sl ∈ db.sales, sl.id < db.nextId)
    (hNoPendingSale : ∀ sl ∈ db.sales, ∀ x ∈ db.reservations,
        sl.reservationId = x.id → x.status ≠ ReservationStatus.PENDING)
    (hR : findReservationByIdAndUser db rid uid = some r)
    (hS : findSeatById db r.seatId = some seat)
    (hP : r.status = ReservationStatus.PENDING) :
    (∀ db' out, confirmRun db now rid uid = (db', Except.ok out) →
      (∀ t ∈ bookingGroup db r.userId seat.sessionId r.expiresAt,
        findReservationById db' t.1.id
            = some { t.1 with status := ReservationStatus.CONFIRMED } ∧
        findSeatById db' t.2.1.id = some { t.2.1 with status := SeatStatus.SOLD } ∧
        saleCountFor db'.sales t.1.id = 1 ∧
        ∃ sl ∈ db'.sales, sl.reservationId = t.1.id ∧
          sl.amount = t.2.2.ticketPrice ∧ sl.paidAt = now) ∧
      (∀ sl ∈ db'.sales, sl ∈ db.sales ∨ sl.paidAt = now)) ∧
    (∀ db' e, confirmRun db now rid uid = (db', Except.error e) → db' = db) := by
  constructor
  · intro db' out hok
    unfold confirmRun at hok
    rcases hbody : confirmPayment db now rid uid with e | ⟨dbp, outp⟩
    · rw [hbody] at hok
      simp at hok
    rw [hbody] at hok
    simp only [Prod.mk.injEq, Except.ok.injEq] at hok
    rcases hok with ⟨hdb, hout⟩
    subst hdb
    -- evaluate the body
    rcases hSess : findSession db seat.sessionId with _ | sess
    · exfalso
      unfold confirmPayment at hbody
      simp only [hR, hS, hSess] at hbody
      exact Except.noConfusion hbody
    by_cases hT : r.expiresAt < now
    · exfalso
      unfold confirmPayment at hbody
      simp only [hR, hS, hSess] at hbody
      rw [if_neg (by simp [hP])] at hbody
      rw [if_neg (by simp [hP])] at hbody
      rw [if_pos hT] at hbody
      exact Except.noConfusion hbody
    rcases confirmPayment_pending_success db now rid uid r seat sess
        hNodupR hSaleFresh hNoPendingSale hR hS hSess hP hT with
      ⟨slr, hslr, hres, hseatid, hamount, hpaid, hfindSale, hfindSeat, hfindSess, heq⟩
    rw [heq] at hbody
    injection hbody with hbody
    have hdbp : dbp = confirmEffect db now (bookingGroup db r.userId seat.sessionId r.expiresAt) := by
      have := congrArg Prod.fst hbody
      exact this.symm
    subst hdbp
    constructor
    · intro t ht
      rcases bookingGroup_mem db r.userId seat.sessionId r.expiresAt t ht with
        ⟨t1mem, t1uid, t1exp, t1pend, tseat, tsid, tsess⟩
      have tresmem : t.1.id ∈ gResIds (bookingGroup db r.userId seat.sessionId r.expiresAt) := by
        unfold gResIds
        exact List.mem_map.2 ⟨t, ht, rfl⟩
      have tseatmem : t.2.1.id ∈ gSeatIds (bookingGroup db r.userId seat.sessionId r.expiresAt) := by
        unfold gSeatIds
        exact List.mem_map.2 ⟨t, ht, rfl⟩
      have tseatkey : t.2.1.id = t.1.seatId := findSeatById_key db t.1.seatId t.2.1 tseat
      refine ⟨?_, ?_, ?_, ?_⟩
      · unfold findReservationById confirmEffect
        show (db.reservations.map _).find? _ = _
        rw [find?_map_comm _ _ (fun x => by rw [confirmResUpdate_id]) db.reservations]
        rw [find?_id_of_mem_nodupRes db.reservations hNodupR t.1 t1mem]
        show some (confirmResUpdate _ t.1) = _
        rw [confirmResUpdate_of_mem _ t.1 tresmem]
      · unfold findSeatById confirmEffect
        show (db.seats.map _).find? _ = _
        rw [find?_map_comm _ _ (fun s => by rw [confirmSeatUpdate_id]) db.seats]
        have tS2 : db.seats.find? (fun s => s.id == t.2.1.id) = some t.2.1 := by
          rw [tseatkey]
          exact tseat
        rw [tS2]
        show some (confirmSeatUpdate _ t.2.1) = _
        rw [confirmSeatUpdate_of_mem _ t.2.1 tseatmem]
      · unfold saleCountFor confirmEffect
        show List.countP _ (db.sales ++ _) = 1
        rw [List.countP_append,
          old_sales_countP_zero db hNoPendingSale t.1 t1mem t1pend,
          groupSales_res_countP_one now db _
            (bookingGroup_nodup db r.userId seat.sessionId r.expiresAt hNodupR) t ht]
      · rcases groupSales_exists now _ db.nextId t ht with ⟨sl, hsl, hp1, hp2, hp3, hp4⟩
        exact ⟨sl, List.mem_append.2 (Or.inr hsl), hp1, hp3, hp4⟩
    · intro sl hsl
      rcases List.mem_append.1 hsl with h1 | h1
      · exact Or.inl h1
      · exact Or.inr (groupSales_mem_inv now _ db.nextId sl h1).1
  · intro db' e herr
    unfold confirmRun at herr
    rcases hbody : confirmPayment db now rid uid with e' | ⟨dbp, outp⟩
    · rw [hbody] at herr
      simp only [Prod.mk.injEq] at herr
      exact herr.1.symm
    · rw [hbody] at herr
      simp at herr

/-- Concrete instantiation of group atomicity: confirming reservation 10 of
    the two-seat hold commits its sibling 11 as CONFIRMED with exactly one
    sale. -/
theorem confirmPayment_group_atomic_witness :
    findReservationById (confirmRun exDbHeld 2000 10 "u1").1 11
        = some { id := 11, seatId := 2, userId := "u1",
                 status := ReservationStatus.CONFIRMED, expiresAt := 31000 } ∧
    saleCountFor (confirmRun exDbHeld 2000 10 "u1").1.sales 11 = 1 := by
  have happ := (confirmPayment_group_atomic exDbHeld 2000 10 "u1"
      { id := 10, seatId := 1, userId := "u1",
        status := ReservationStatus.PENDING, expiresAt := 31000 }
      { id := 1, seatNumber := "A1", status := SeatStatus.RESERVED, sessionId := 0 }
      (by decide) (by decide) (by decide) (by decide) (by decide) (by decide)).1
      (confirmRun exDbHeld 2000 10 "u1").1
      ({ id := 12, seatId := 1, seatNumber := "A1", userId := "u1", reservationId := 10, amount := 10, movieName := "M", sessionStartTime := 0, roomNumber := "R", paidAt := 2000 })
      rfl
  have hmem : (({ id := 11, seatId := 2, userId := "u1", status := ReservationStatus.PENDING, expiresAt := 31000 } : Reservation), ({ id := 2, seatNumber := "A2", status := SeatStatus.RESERVED, sessionId := 0 } : Seat), exSession) ∈ bookingGroup exDbHeld "u1" 0 31000 := by decide
  have h := happ.1 _ hmem
  exact ⟨h.1, h.2.2.1⟩

/-- The idempotency short-circuit of confirmPayment: an already CONFIRMED
    target returns its existing sale and commits no change. -/
theorem confirmPayment_confirmed_short (db : Db) (now rid : Nat) (uid : String)
    (r : Reservation) (seat : Seat) (sess : MovieSession) (sale : Sale)
    (sseat : Seat) (ssess : MovieSession)
    (hR : findReservationByIdAndUser db rid uid = some r)
    (hS : findSeatById db r.seatId = some seat)
    (hSess : findSession db seat.sessionId = some sess)
    (hC : r.status = ReservationStatus.CONFIRMED)
    (hsale : findSaleByReservation db r.id = some sale)
    (hsseat : findSeatById db sale.seatId = some sseat)
    (hssess : findSession db sseat.sessionId = some ssess) :
    confirmRun db now rid uid = (db, Except.ok (mkSaleResponse sale sseat ssess)) := by
  have hbody : confirmPayment db now rid uid
      = Except.ok (db, mkSaleResponse sale sseat ssess) := by
    unfold confirmPayment
    simp only [hR, hS, hSess]
    rw [if_pos hC]
    simp only [hsale, hsseat, hssess]
  unfold confirmRun
  rw [hbody]

/-- The corruption branch of the short-circuit: CONFIRMED without a sale
    fails and changes nothing. -/
theorem confirmPayment_confirmed_nosale (db : Db) (now rid : Nat) (uid : String)
    (r : Reservation) (seat : Seat) (sess : MovieSession)
    (hR : findReservationByIdAndUser db rid uid = some r)
    (hS : findSeatById db r.seatId = some seat)
    (hSess : findSession db seat.sessionId = some sess)
    (hC : r.status = ReservationStatus.CONFIRMED)
    (hnone : findSaleByReservation db r.id = none) :
    confirmRun db now rid uid = (db, Except.error SvcError.confirmedButSaleMissing) := by
  have hbody : confirmPayment db now rid uid
      = Except.error SvcError.confirmedButSaleMissing := by
    unfold confirmPayment
    simp only [hR, hS, hSess]
    rw [if_pos hC]
    simp only [hnone]
  unfold confirmRun
  rw [hbody]

/-- C2: an already CONFIRMED reservation with its sale short-circuits:
    ConfirmPayment succeeds, returns the existing sale record and changes
    no state; a CONFIRMED reservation without a sale fails with the
    INVALID_STATE error instead of synthesising one; and re-running
    ConfirmPayment right after a successful first confirmation returns the
    very same sale record (same id, same attributes) with no state
    change. -/
theorem confirmPayment_idempotent (db : Db) (now now2 rid : Nat) (uid : String)
    (r : Reservation) (seat : Seat) (sess : MovieSession)
    (hR : findReservationByIdAndUser db rid uid = some r)
    (hS : findSeatById db r.seatId = some seat)
    (hSess : findSession db seat.sessionId = some sess) :
    (∀ sale sseat ssess,
      r.status = ReservationStatus.CONFIRMED →
      findSaleByReservation db r.id = some sale →
      findSeatById db sale.seatId = some sseat →
      findSession db sseat.sessionId = some ssess →
      confirmRun db now rid uid = (db, Except.ok (mkSaleResponse sale sseat ssess))) ∧
    (r.status = ReservationStatus.CONFIRMED →
      findSaleByReservation db r.id = none →
      confirmRun db now rid uid = (db, Except.error SvcError.confirmedButSaleMissing) ∧
      SvcError.confirmedButSaleMissing.kind = ErrorKind.INVALID_STATE) ∧
    ((db.reservations.map (fun x => x.id)).Nodup →
      (∀ sl ∈ db.sales, sl.id < db.nextId) →
      (∀ sl ∈ db.sales, ∀ x ∈ db.reservations, sl.reservationId = x.id →
        x.status ≠ ReservationStatus.PENDING) →
      r.status = ReservationStatus.PENDING →
      ∀ db1 out1, confirmRun db now rid uid = (db1, Except.ok out1) →
        confirmRun db1 now2 rid uid = (db1, Except.ok out1)) := by
  refine ⟨?_, ?_, ?_⟩
  · intro sale sseat ssess hC hsale hsseat hssess
    exact confirmPayment_confirmed_short db now rid uid r seat sess sale sseat ssess
      hR hS hSess hC hsale hsseat hssess
  · intro hC hnone
    exact ⟨confirmPayment_confirmed_nosale db now rid uid r seat sess
      hR hS hSess hC hnone, rfl⟩
  · intro hNodupR hSaleFresh hNoPendingSale hP db1 out1 hok
    rcases findReservationByIdAndUser_inv db rid uid r hR with ⟨hrid, huid, hmem⟩
    have hseatkey : seat.id = r.seatId := findSeatById_key db r.seatId seat hS
    unfold confirmRun at hok
    rcases hbody : confirmPayment db now rid uid with e | ⟨dbp, outp⟩
    · rw [hbody] at hok
      simp at hok
    rw [hbody] at hok
    simp only [Prod.mk.injEq, Except.ok.injEq] at hok
    rcases hok with ⟨hdb1, hout1⟩
    by_cases hT : r.expiresAt < now
    · exfalso
      unfold confirmPayment at hbody
      simp only [hR, hS, hSess] at hbody
      rw [if_neg (by simp [hP])] at hbody
      rw [if_neg (by simp [hP])] at hbody
      rw [if_pos hT] at hbody
      exact Except.noConfusion hbody
    rcases confirmPayment_pending_success db now rid uid r seat sess
        hNodupR hSaleFresh hNoPendingSale hR hS hSess hP hT with
      ⟨slr, hslr, hres, hseatid, hamount, hpaid, hfindSale, hfindSeat, hfindSess, heq⟩
    rw [heq] at hbody
    injection hbody with hbody
    have hdbp : dbp
        = confirmEffect db now (bookingGroup db r.userId seat.sessionId r.expiresAt) :=
      (congrArg Prod.fst hbody).symm
    have houtp : outp = mkSaleResponse slr { seat with status := SeatStatus.SOLD } sess :=
      (congrArg Prod.snd hbody).symm
    subst hdb1
    subst hout1
    subst hdbp
    subst houtp
    -- the second call short-circuits on the now-CONFIRMED target
    have hrg : (r, seat, sess) ∈ bookingGroup db r.userId seat.sessionId r.expiresAt :=
      bookingGroup_complete db r.userId seat.sessionId r.expiresAt r seat sess
        hmem rfl rfl hP hS rfl hSess
    have hridsmem : r.id ∈ gResIds (bookingGroup db r.userId seat.sessionId r.expiresAt) := by
      unfold gResIds
      exact List.mem_map.2 ⟨(r, seat, sess), hrg, rfl⟩
    have hR1 : findReservationByIdAndUser
        (confirmEffect db now (bookingGroup db r.userId seat.sessionId r.expiresAt)) rid uid
        = some { r with status := ReservationStatus.CONFIRMED } := by
      unfold findReservationByIdAndUser confirmEffect
      show (db.reservations.map _).find? _ = _
      rw [find?_map_comm _ _
        (fun x => by rw [confirmResUpdate_id, confirmResUpdate_userId]) db.reservations]
      unfold findReservationByIdAndUser at hR
      rw [hR]
      show some (confirmResUpdate _ r) = _
      rw [confirmResUpdate_of_mem _ r hridsmem]
    have hS1 : findSeatById
        (confirmEffect db now (bookingGroup db r.userId seat.sessionId r.expiresAt))
        ({ r with status := ReservationStatus.CONFIRMED } : Reservation).seatId
        = some { seat with status := SeatStatus.SOLD } := by
      have h1 : r.seatId = slr.seatId := by rw [hseatid, hseatkey]
      show findSeatById _ r.seatId = _
      rw [h1]
      exact hfindSeat
    have hSess1 : findSession
        (confirmEffect db now (bookingGroup db r.userId seat.sessionId r.expiresAt))
        ({ seat with status := SeatStatus.SOLD } : Seat).sessionId = some sess := by
      show findSession _ seat.sessionId = _
      exact hfindSess
    have hsale1 : findSaleByReservation
        (confirmEffect db now (bookingGroup db r.userId seat.sessionId r.expiresAt))
        ({ r with status := ReservationStatus.CONFIRMED } : Reservation).id = some slr := by
      show findSaleByReservation _ r.id = _
      exact hfindSale
    exact confirmPayment_confirmed_short _ now2 rid uid
      { r with status := ReservationStatus.CONFIRMED }
      { seat with status := SeatStatus.SOLD } sess slr
      { seat with status := SeatStatus.SOLD } sess
      hR1 hS1 hSess1 rfl hsale1 hfindSeat hSess1

/-- Concrete instantiation of confirm idempotency: a second confirm on the
    already-confirmed store returns sale 12 unchanged. -/
theorem confirmPayment_idempotent_witness :
    confirmRun (confirmRun exDbHeld 2000 10 "u1").1 3000 10 "u1"
      = ((confirmRun exDbHeld 2000 10 "u1").1,
         Except.ok (mkSaleResponse
           ({ id := 12, seatId := 1, userId := "u1", reservationId := 10, amount := 10, paidAt := 2000 })
           ({ id := 1, seatNumber := "A1", status := SeatStatus.SOLD, sessionId := 0 })
           exSession)) :=
  (confirmPayment_idempotent (confirmRun exDbHeld 2000 10 "u1").1 3000 3000 10 "u1"
      ({ id := 10, seatId := 1, userId := "u1", status := ReservationStatus.CONFIRMED, expiresAt := 31000 })
      ({ id := 1, seatNumber := "A1", status := SeatStatus.SOLD, sessionId := 0 })
      exSession (by decide) (by decide) (by decide)).1
    ({ id := 12, seatId := 1, userId := "u1", reservationId := 10, amount := 10, paidAt := 2000 })
    ({ id := 1, seatNumber := "A1", status := SeatStatus.SOLD, sessionId := 0 })
    exSession (by decide) (by decide) (by decide) (by decide)

/-! Infrastructure for the invariant-preservation proofs (C4). -/

theorem two_le_countP {α : Type} (p : α → Bool) :
    ∀ (l : List α) (a b : α), a ∈ l → b ∈ l → a ≠ b →
      p a = true → p b = true → 2 ≤ l.countP p := by
  intro l
  induction l with
  | nil => intro a b ha _ _ _ _; exact absurd ha (List.not_mem_nil a)
  | cons c t ih =>
    intro a b ha hb hab hpa hpb
    rw [List.countP_cons]
    rcases List.mem_cons.1 ha with h1 | h1
    · subst h1
      have hbt : b ∈ t := by
        rcases List.mem_cons.1 hb with h2 | h2
        · exact absurd h2.symm hab
        · exact h2
      have h1t : 0 < t.countP p := List.countP_pos.2 ⟨b, hbt, hpb⟩
      rw [if_pos hpa]
      omega
    · rcases List.mem_cons.1 hb with h2 | h2
      · subst h2
        have h1t : 0 < t.countP p := List.countP_pos.2 ⟨a, h1, hpa⟩
        rw [if_pos hpb]
        omega
      · have := ih a b h1 h2 hab hpa hpb
        omega

theorem countP_eq_one_of_unique {α : Type} [DecidableEq α] (p : α → Bool) :
    ∀ (l : List α) (m : α), m ∈ l → p m = true →
      (∀ r ∈ l, p r = true → r = m) → l.count m = 1 → l.countP p = 1 := by
  intro l
  induction l with
  | nil => intro m hm; exact absurd hm (List.not_mem_nil m)
  | cons c t ih =>
    intro m hm hpm huniq hcount
    rw [List.countP_cons]
    rw [List.count_cons] at hcount
    cases hpc : p c with
    | true =>
      have hcm : c = m := huniq c (List.mem_cons_self c t) hpc
      subst hcm
      simp only [if_pos rfl, beq_self_eq_true, if_true] at hcount ⊢
      have hnt : c ∉ t := by
        intro hmem
        have : (1 : Nat) ≤ t.count c := List.count_pos_iff.2 hmem
        omega
      have ht0 : t.countP p = 0 := by
        refine List.countP_eq_zero.2 (fun a ha hpa => ?_)
        have := huniq a (List.mem_cons_of_mem c ha) hpa
        subst this
        exact hnt ha
      omega
    | false =>
      have hcm : c ≠ m := fun h => by rw [h, hpm] at hpc; cases hpc
      have hmt : m ∈ t := by
        rcases List.mem_cons.1 hm with h1 | h1
        · exact absurd h1.symm hcm
        · exact h1
      have hcount2 : t.count m = 1 := by
        rw [if_neg (by simpa using hcm)] at hcount
        omega
      rw [if_neg (by simp [hpc])]
      rw [ih m hmt hpm (fun r hr hpr => huniq r (List.mem_cons_of_mem c hr) hpr) hcount2]

theorem nodup_field_inj {α β : Type} (f : α → β) :
    ∀ (l : List α), (l.map f).Nodup →
      ∀ a ∈ l, ∀ b ∈ l, f a = f b → a = b := by
  intro l
  induction l with
  | nil => intro _ a ha; exact absurd ha (List.not_mem_nil a)
  | cons c t ih =>
    intro hnd a ha b hb hfab
    rw [List.map_cons, List.nodup_cons] at hnd
    rcases List.mem_cons.1 ha with h1 | h1 <;> rcases List.mem_cons.1 hb with h2 | h2
    · rw [h1, h2]
    · exfalso
      subst h1
      exact hnd.1 (hfab ▸ List.mem_map.2 ⟨b, h2, rfl⟩)
    · exfalso
      subst h2
      exact hnd.1 (hfab ▸ List.mem_map.2 ⟨a, h1, rfl⟩)
    · exact ih hnd.2 a h1 b h2 hfab

theorem count_eq_one_of_nodup_map {α β : Type} [DecidableEq α] (f : α → β)
    (l : List α) (h : (l.map f).Nodup) (a : α) (ha : a ∈ l) : l.count a = 1 :=
  List.count_eq_one_of_mem (List.Nodup.of_map f h) ha

theorem confirmResUpdate_seatId (ids : List Nat) (r : Reservation) :
    (confirmResUpdate ids r).seatId = r.seatId := by
  unfold confirmResUpdate
  by_cases h : ids.contains r.id = true
  · rw [if_pos h]
  · rw [if_neg h]

theorem confirmResUpdate_status_pending (ids : List Nat) (r : Reservation)
    (h : (confirmResUpdate ids r).status = ReservationStatus.PENDING) :
    r.status = ReservationStatus.PENDING ∧ ids.contains r.id = false := by
  unfold confirmResUpdate at h
  by_cases hc : ids.contains r.id = true
  · rw [if_pos hc] at h
    exact absurd h (by simp)
  · rw [if_neg hc] at h
    exact ⟨h, by simpa using hc⟩

theorem confirmResUpdate_status_confirmed (ids : List Nat) (r : Reservation)
    (h : (confirmResUpdate ids r).status = ReservationStatus.CONFIRMED) :
    ids.contains r.id = true ∨ r.status = ReservationStatus.CONFIRMED := by
  unfold confirmResUpdate at h
  by_cases hc : ids.contains r.id = true
  · exact Or.inl hc
  · rw [if_neg hc] at h
    exact Or.inr h

theorem confirmResUpdate_confirmed_of (ids : List Nat) (r : Reservation)
    (h : r.status = ReservationStatus.CONFIRMED) :
    (confirmResUpdate ids r).status = ReservationStatus.CONFIRMED := by
  unfold confirmResUpdate
  by_cases hc : ids.contains r.id = true
  · rw [if_pos hc]
  · rw [if_neg hc]
    exact h

/-- Derived from FullInv: no sale references a PENDING reservation. -/
theorem fullInv_no_pending_sale (db : Db) (hW : WfDb db) (hI : FullInv db) :
    ∀ sl ∈ db.sales, ∀ x ∈ db.reservations,
      sl.reservationId = x.id → x.status ≠ ReservationStatus.PENDING := by
  intro sl hsl x hx hid hP
  rcases hI.2.1 sl hsl with ⟨r', hr', hrid, hrC⟩
  rw [hid] at hrid
  have : x = r' := nodup_field_inj (fun y => y.id) db.reservations hW.1 x hx r' hr'
    (by show x.id = r'.id; rw [hrid])
  rw [this, hrC] at hP
  cases hP

theorem seatFullInv_eq_available (db : Db) (s : Seat)
    (h : s.status = SeatStatus.AVAILABLE) :
    seatFullInv db s
      = (pendingCount db.reservations s.id == 0 &&
         confirmedCount db.reservations s.id == 0) := by
  unfold seatFullInv
  rw [h]

theorem seatFullInv_eq_reserved (db : Db) (s : Seat)
    (h : s.status = SeatStatus.RESERVED) :
    seatFullInv db s
      = (pendingCount db.reservations s.id == 1 &&
         confirmedCount db.reservations s.id == 0) := by
  unfold seatFullInv
  rw [h]

theorem seatFullInv_eq_sold (db : Db) (s : Seat)
    (h : s.status = SeatStatus.SOLD) :
    seatFullInv db s
      = (pendingCount db.reservations s.id == 0 &&
         (confirmedCount db.reservations s.id == 1 &&
          db.reservations.all (fun r =>
            !(r.seatId == s.id && r.status == ReservationStatus.CONFIRMED) ||
            saleCountFor db.sales r.id == 1))) := by
  unfold seatFullInv
  rw [h]
  rw [Bool.and_assoc]

/-- The id projections of the updated reservation and seat tables are
    unchanged. -/
theorem confirmEffect_res_ids (db : Db) (now : Nat)
    (g : List (Reservation × Seat × MovieSession)) :
    (confirmEffect db now g).reservations.map (fun x => x.id)
      = db.reservations.map (fun x => x.id) := by
  show (db.reservations.map _).map _ = _
  rw [List.map_map]
  exact List.map_congr_left (fun x _ => by
    show (confirmResUpdate (gResIds g) x).id = x.id
    rw [confirmResUpdate_id])

theorem confirmEffect_seat_ids (db : Db) (now : Nat)
    (g : List (Reservation × Seat × MovieSession)) :
    (confirmEffect db now g).seats.map (fun x => x.id)
      = db.seats.map (fun x => x.id) := by
  show (db.seats.map _).map _ = _
  rw [List.map_map]
  exact List.map_congr_left (fun x _ => by
    show (confirmSeatUpdate (gSeatIds g) x).id = x.id
    rw [confirmSeatUpdate_id])

/-- Wellformedness is preserved by the batch confirmation effect. -/
theorem confirmEffect_wf (db : Db) (now : Nat)
    (g : List (Reservation × Seat × MovieSession)) (hW : WfDb db) :
    WfDb (confirmEffect db now g) := by
  rcases hW with ⟨hWr, hWs, hWsl, hWrn, hWsn, hWfk⟩
  have hsaleIds : (confirmEffect db now g).sales.map (fun s => s.id)
      = db.sales.map (fun s => s.id) ++ List.range' db.nextId g.length := by
    show (db.sales ++ groupSales now db.nextId g).map _ = _
    rw [List.map_append, groupSales_map_id]
  refine ⟨?_, ?_, ?_, ?_, ?_, ?_⟩
  · rw [confirmEffect_res_ids]
    exact hWr
  · rw [confirmEffect_seat_ids]
    exact hWs
  · rw [hsaleIds]
    rw [List.nodup_append]
    refine ⟨hWsl, List.nodup_range' _ _, ?_⟩
    intro a ha hb
    rcases List.mem_map.1 ha with ⟨sl, hsl, hid⟩
    have hid' : sl.id = a := hid
    rcases List.mem_range'.1 hb with ⟨i, _, hi⟩
    have := hWsn sl hsl
    omega
  · intro r hr
    rcases List.mem_map.1 hr with ⟨x, hx, hxeq⟩
    subst hxeq
    show (confirmResUpdate (gResIds g) x).id < db.nextId + g.length
    rw [confirmResUpdate_id]
    have := hWrn x hx
    omega
  · intro sl hsl
    rcases List.mem_append.1 hsl with h1 | h1
    · show sl.id < db.nextId + g.length
      have := hWsn sl h1
      omega
    · have hmem : sl.id ∈ List.range' db.nextId g.length := by
        rw [← groupSales_map_id now g db.nextId]
        exact List.mem_map.2 ⟨sl, h1, rfl⟩
      rcases List.mem_range'.1 hmem with ⟨i, hilt, hi⟩
      show sl.id < db.nextId + g.length
      omega
  · intro r hr
    rcases List.mem_map.1 hr with ⟨x, hx, hxeq⟩
    subst hxeq
    show (findSeatById (confirmEffect db now g) (confirmResUpdate (gResIds g) x).seatId).isSome
      = true
    rw [confirmResUpdate_seatId]
    unfold findSeatById
    show ((db.seats.map _).find? _).isSome = true
    rw [find?_map_comm _ _ (fun s => by rw [confirmSeatUpdate_id]) db.seats]
    have := hWfk x hx
    unfold findSeatById at this
    rcases hfind : db.seats.find? (fun s => s.id == x.seatId) with _ | s0
    · rw [hfind] at this
      cases this
    · rw [hfind]
      rfl

/-- Packaging of the sale-uniqueness clause of a SOLD seat. -/
theorem sold_all_clause (db : Db) (k : Nat)
    (h : ∀ y ∈ db.reservations, y.seatId = k →
        y.status = ReservationStatus.CONFIRMED → saleCountFor db.sales y.id = 1) :
    db.reservations.all (fun r =>
        !(r.seatId == k && r.status == ReservationStatus.CONFIRMED) ||
        saleCountFor db.sales r.id == 1) = true := by
  rw [List.all_eq_true]
  intro y hy
  by_cases hc : (y.seatId == k && y.status == ReservationStatus.CONFIRMED) = true
  · simp only [Bool.and_eq_true, beq_iff_eq] at hc
    simp [h y hy hc.1 hc.2]
  · have hA : (y.seatId == k && y.status == ReservationStatus.CONFIRMED) = false :=
      Bool.eq_false_iff.2 hc
    rw [hA]
    rfl

/-- Inversion of the sale-uniqueness clause of a SOLD seat. -/
theorem sold_all_clause_inv (db : Db) (k : Nat)
    (h : db.reservations.all (fun r =>
        !(r.seatId == k && r.status == ReservationStatus.CONFIRMED) ||
        saleCountFor db.sales r.id == 1) = true) :
    ∀ y ∈ db.reservations, y.seatId = k →
      y.status = ReservationStatus.CONFIRMED → saleCountFor db.sales y.id = 1 := by
  intro y hy h1 h2
  have hthis := List.all_eq_true.1 h y hy
  rw [h1, h2] at hthis
  simpa using hthis

/-- Confirming a booking group preserves the strengthened consistency
    invariant. -/
theorem confirmEffect_fullInv (db : Db) (now : Nat) (uid : String) (sid exp : Nat)
    (hW : WfDb db) (hI : FullInv db) :
    FullInv (confirmEffect db now (bookingGroup db uid sid exp)) := by
  have hNPS := fullInv_no_pending_sale db hW hI
  rcases hW with ⟨hWr, hWs, _, _, _, _⟩
  rcases hI with ⟨hIseat, hIsale1, hIsale2⟩
  set g := bookingGroup db uid sid exp with hg
  have gnodup : (gResIds g).Nodup := by
    rw [hg]
    exact bookingGroup_nodup db uid sid exp hWr
  have hfst : ∀ t ∈ g, t.1 ∈ db.reservations := by
    intro t ht
    rw [hg] at ht
    exact (bookingGroup_mem db uid sid exp t ht).1
  have hpend : ∀ t ∈ g, t.1.status = ReservationStatus.PENDING := by
    intro t ht
    rw [hg] at ht
    exact (bookingGroup_mem db uid sid exp t ht).2.2.2.1
  have hseatf : ∀ t ∈ g, findSeatById db t.1.seatId = some t.2.1 := by
    intro t ht
    rw [hg] at ht
    exact (bookingGroup_mem db uid sid exp t ht).2.2.2.2.1
  have hseatkey : ∀ t ∈ g, t.2.1.id = t.1.seatId := by
    intro t ht
    exact findSeatById_key db t.1.seatId t.2.1 (hseatf t ht)
  have hseatmem : ∀ t ∈ g, t.2.1 ∈ db.seats := by
    intro t ht
    exact findSeatById_mem db t.1.seatId t.2.1 (hseatf t ht)
  have hgid : ∀ x ∈ db.reservations, x.id ∈ gResIds g → ∃ t ∈ g, t.1 = x := by
    intro x hx hxid
    unfold gResIds at hxid
    rcases List.mem_map.1 hxid with ⟨t, ht, hid0⟩
    have hid : t.1.id = x.id := hid0
    exact ⟨t, ht, nodup_field_inj (fun y => y.id) db.reservations hWr t.1 (hfst t ht) x hx hid⟩
  have hgid_pend : ∀ x ∈ db.reservations, x.id ∈ gResIds g →
      x.status = ReservationStatus.PENDING ∧ x.seatId ∈ gSeatIds g := by
    intro x hx hxid
    rcases hgid x hx hxid with ⟨t, ht, hteq⟩
    constructor
    · rw [← hteq]
      exact hpend t ht
    · rw [← hteq, ← hseatkey t ht]
      unfold gSeatIds
      exact List.mem_map.2 ⟨t, ht, rfl⟩
  have hseatstat : ∀ t ∈ g, t.2.1.status = SeatStatus.RESERVED ∧
      pendingCount db.reservations t.2.1.id = 1 ∧
      confirmedCount db.reservations t.2.1.id = 0 := by
    intro t ht
    have hsf := hIseat t.2.1 (hseatmem t ht)
    have hpend_pos : 0 < pendingCount db.reservations t.2.1.id := by
      unfold pendingCount
      refine List.countP_pos_iff.2 ⟨t.1, hfst t ht, ?_⟩
      simp [hseatkey t ht, hpend t ht]
    cases hstat : t.2.1.status with
    | AVAILABLE =>
        rw [seatFullInv_eq_available db t.2.1 hstat] at hsf
        simp only [Bool.and_eq_true, beq_iff_eq] at hsf
        exfalso
        omega
    | RESERVED =>
        rw [seatFullInv_eq_reserved db t.2.1 hstat] at hsf
        simp only [Bool.and_eq_true, beq_iff_eq] at hsf
        exact ⟨rfl, hsf.1, hsf.2⟩
    | SOLD =>
        rw [seatFullInv_eq_sold db t.2.1 hstat] at hsf
        simp only [Bool.and_eq_true, beq_iff_eq] at hsf
        exfalso
        omega
  have hpend_uniq : ∀ t ∈ g, ∀ y ∈ db.reservations, y.seatId = t.2.1.id →
      y.status = ReservationStatus.PENDING → y = t.1 := by
    intro t ht y hy hys hyp
    by_contra hne
    have h2 := two_le_countP
      (fun z => z.seatId == t.2.1.id && z.status == ReservationStatus.PENDING)
      db.reservations y t.1 hy (hfst t ht) hne
      (by simp [hys, hyp]) (by simp [hseatkey t ht, hpend t ht])
    have h1 := (hseatstat t ht).2.1
    unfold pendingCount at h1
    omega
  refine ⟨?_, ?_, ?_⟩
  · -- the per-seat clauses
    intro s' hs'
    have hs'' : s' ∈ db.seats.map (confirmSeatUpdate (gSeatIds g)) := hs'
    rcases List.mem_map.1 hs'' with ⟨s, hsmem, rfl⟩
    by_cases hin : s.id ∈ gSeatIds g
    · -- a group seat, now SOLD
      have hin' := hin
      unfold gSeatIds at hin'
      rcases List.mem_map.1 hin' with ⟨t, ht, htid0⟩
      have htid : t.2.1.id = s.id := htid0
      have hts : t.2.1 = s :=
        nodup_field_inj (fun z => z.id) db.seats hWs t.2.1 (hseatmem t ht) s hsmem htid
      subst hts
      have hstat' : (confirmSeatUpdate (gSeatIds g) t.2.1).status = SeatStatus.SOLD := by
        rw [confirmSeatUpdate_of_mem _ _ hin]
      rw [seatFullInv_eq_sold _ _ hstat']
      rw [confirmSeatUpdate_id]
      simp only [Bool.and_eq_true, beq_iff_eq]
      refine ⟨?_, ?_, ?_⟩
      · -- no PENDING reservation on the seat after the update
        show pendingCount (db.reservations.map (confirmResUpdate (gResIds g))) t.2.1.id = 0
        unfold pendingCount
        rw [List.countP_map]
        refine List.countP_eq_zero.2 (fun y hy hpy => ?_)
        have hpy' : ((confirmResUpdate (gResIds g) y).seatId == t.2.1.id &&
            (confirmResUpdate (gResIds g) y).status == ReservationStatus.PENDING) = true := hpy
        rw [confirmResUpdate_seatId] at hpy'
        simp only [Bool.and_eq_true, beq_iff_eq] at hpy'
        rcases hpy' with ⟨hys, hyst⟩
        have hnotin : y.id ∉ gResIds g := by
          intro hmemid
          rw [confirmResUpdate_of_mem _ _ hmemid] at hyst
          have hyst' : ReservationStatus.CONFIRMED = ReservationStatus.PENDING := hyst
          exact ReservationStatus.noConfusion hyst'
        rw [confirmResUpdate_of_not_mem _ _ hnotin] at hyst
        have hyeq : y = t.1 := hpend_uniq t ht y hy hys hyst
        refine hnotin ?_
        rw [hyeq]
        exact List.mem_map.2 ⟨t, ht, rfl⟩
      · -- exactly the group reservation is CONFIRMED on the seat
        show confirmedCount (db.reservations.map (confirmResUpdate (gResIds g))) t.2.1.id = 1
        unfold confirmedCount
        rw [List.countP_map]
        have htg : t.1.id ∈ gResIds g := List.mem_map.2 ⟨t, ht, rfl⟩
        refine countP_eq_one_of_unique _ db.reservations t.1 (hfst t ht) ?_ ?_ ?_
        · show ((confirmResUpdate (gResIds g) t.1).seatId == t.2.1.id &&
              (confirmResUpdate (gResIds g) t.1).status == ReservationStatus.CONFIRMED) = true
          rw [confirmResUpdate_seatId, confirmResUpdate_of_mem _ _ htg]
          simp [hseatkey t ht]
        · intro y hy hpy
          have hpy' : ((confirmResUpdate (gResIds g) y).seatId == t.2.1.id &&
              (confirmResUpdate (gResIds g) y).status == ReservationStatus.CONFIRMED) = true := hpy
          rw [confirmResUpdate_seatId] at hpy'
          simp only [Bool.and_eq_true, beq_iff_eq] at hpy'
          rcases hpy' with ⟨hys, hyst⟩
          by_cases hyin : y.id ∈ gResIds g
          · exact hpend_uniq t ht y hy hys (hgid_pend y hy hyin).1
          · rw [confirmResUpdate_of_not_mem _ _ hyin] at hyst
            exfalso
            have h0 := (hseatstat t ht).2.2
            unfold confirmedCount at h0
            have hpos : 0 < db.reservations.countP
                (fun r => r.seatId == t.2.1.id && r.status == ReservationStatus.CONFIRMED) :=
              List.countP_pos_iff.2 ⟨y, hy, by simp [hys, hyst]⟩
            omega
        · exact count_eq_one_of_nodup_map (fun x => x.id) db.reservations hWr t.1 (hfst t ht)
      · -- the confirmed reservation owns exactly one sale
        refine sold_all_clause
          (confirmEffect db now g) t.2.1.id ?_
        intro y' hy' hys' hyst'
        have hy'' : y' ∈ db.reservations.map (confirmResUpdate (gResIds g)) := hy'
        rcases List.mem_map.1 hy'' with ⟨y, hy, rfl⟩
        rw [confirmResUpdate_seatId] at hys'
        rw [confirmResUpdate_id]
        by_cases hyin : y.id ∈ gResIds g
        · have hyeq : y = t.1 := hpend_uniq t ht y hy hys' (hgid_pend y hy hyin).1
          show saleCountFor (db.sales ++ groupSales now db.nextId g) y.id = 1
          unfold saleCountFor
          rw [List.countP_append]
          have hold := old_sales_countP_zero db hNPS y hy (hgid_pend y hy hyin).1
          have hnew := groupSales_res_countP_one now db g gnodup t ht
          rw [hold, hyeq, hnew]
        · rw [confirmResUpdate_of_not_mem _ _ hyin] at hyst'
          exfalso
          have h0 := (hseatstat t ht).2.2
          unfold confirmedCount at h0
          have hpos : 0 < db.reservations.countP
              (fun r => r.seatId == t.2.1.id && r.status == ReservationStatus.CONFIRMED) :=
            List.countP_pos_iff.2 ⟨y, hy, by simp [hys', hyst']⟩
          omega
    · -- a seat outside the group: unchanged, and all counts at it unchanged
      rw [confirmSeatUpdate_of_not_mem _ _ hin]
      have hpe : pendingCount (db.reservations.map (confirmResUpdate (gResIds g))) s.id
          = pendingCount db.reservations s.id := by
        unfold pendingCount
        rw [List.countP_map]
        refine List.countP_congr (fun y hy => ?_)
        have heq : ((confirmResUpdate (gResIds g) y).seatId == s.id &&
            (confirmResUpdate (gResIds g) y).status == ReservationStatus.PENDING)
          = (y.seatId == s.id && y.status == ReservationStatus.PENDING) := by
          by_cases hys : y.seatId = s.id
          · have hynot : y.id ∉ gResIds g := by
              intro hidg
              exact hin (hys ▸ (hgid_pend y hy hidg).2)
            rw [confirmResUpdate_of_not_mem _ _ hynot]
          · have hb : (y.seatId == s.id) = false := by simp [hys]
            rw [confirmResUpdate_seatId, hb]
            rfl
        exact iff_of_eq (congrArg (fun b => b = true) heq)
      have hce : confirmedCount (db.reservations.map (confirmResUpdate (gResIds g))) s.id
          = confirmedCount db.reservations s.id := by
        unfold confirmedCount
        rw [List.countP_map]
        refine List.countP_congr (fun y hy => ?_)
        have heq : ((confirmResUpdate (gResIds g) y).seatId == s.id &&
            (confirmResUpdate (gResIds g) y).status == ReservationStatus.CONFIRMED)
          = (y.seatId == s.id && y.status == ReservationStatus.CONFIRMED) := by
          by_cases hys : y.seatId = s.id
          · have hynot : y.id ∉ gResIds g := by
              intro hidg
              exact hin (hys ▸ (hgid_pend y hy hidg).2)
            rw [confirmResUpdate_of_not_mem _ _ hynot]
          · have hb : (y.seatId == s.id) = false := by simp [hys]
            rw [confirmResUpdate_seatId, hb]
            rfl
        exact iff_of_eq (congrArg (fun b => b = true) heq)
      have hsf := hIseat s hsmem
      cases hstat : s.status with
      | AVAILABLE =>
          rw [seatFullInv_eq_available _ _ hstat] at hsf
          rw [seatFullInv_eq_available _ _ hstat]
          show (pendingCount (db.reservations.map (confirmResUpdate (gResIds g))) s.id == 0 &&
              confirmedCount (db.reservations.map (confirmResUpdate (gResIds g))) s.id == 0) = true
          rw [hpe, hce]
          exact hsf
      | RESERVED =>
          rw [seatFullInv_eq_reserved _ _ hstat] at hsf
          rw [seatFullInv_eq_reserved _ _ hstat]
          show (pendingCount (db.reservations.map (confirmResUpdate (gResIds g))) s.id == 1 &&
              confirmedCount (db.reservations.map (confirmResUpdate (gResIds g))) s.id == 0) = true
          rw [hpe, hce]
          exact hsf
      | SOLD =>
          rw [seatFullInv_eq_sold _ _ hstat] at hsf
          rw [seatFullInv_eq_sold _ _ hstat]
          simp only [Bool.and_eq_true, beq_iff_eq] at hsf
          rcases hsf with ⟨hsp, hsc, hall⟩
          simp only [Bool.and_eq_true, beq_iff_eq]
          refine ⟨?_, ?_, ?_⟩
          · show pendingCount (db.reservations.map (confirmResUpdate (gResIds g))) s.id = 0
            rw [hpe]
            exact hsp
          · show confirmedCount (db.reservations.map (confirmResUpdate (gResIds g))) s.id = 1
            rw [hce]
            exact hsc
          · refine sold_all_clause (confirmEffect db now g) s.id ?_
            intro y' hy' hys' hyst'
            have hy'' : y' ∈ db.reservations.map (confirmResUpdate (gResIds g)) := hy'
            rcases List.mem_map.1 hy'' with ⟨y, hy, rfl⟩
            rw [confirmResUpdate_seatId] at hys'
            rw [confirmResUpdate_id]
            have hynot : y.id ∉ gResIds g := by
              intro hidg
              exact hin (hys' ▸ (hgid_pend y hy hidg).2)
            rw [confirmResUpdate_of_not_mem _ _ hynot] at hyst'
            have hpre := sold_all_clause_inv db s.id hall y hy hys' hyst'
            show saleCountFor (db.sales ++ groupSales now db.nextId g) y.id = 1
            unfold saleCountFor
            rw [List.countP_append]
            have hnew0 : (groupSales now db.nextId g).countP
                (fun sl => sl.reservationId == y.id) = 0 := by
              rw [groupSales_countP]
              refine List.countP_eq_zero.2 (fun u hu hpu => ?_)
              have hpu' : u.1.id = y.id := by simpa using hpu
              refine hynot ?_
              rw [← hpu']
              exact List.mem_map.2 ⟨u, hu, rfl⟩
            have hold := hpre
            unfold saleCountFor at hold
            rw [hnew0, hold]
  · -- every sale references an existing CONFIRMED reservation
    intro sl hsl
    have hsl' : sl ∈ db.sales ++ groupSales now db.nextId g := hsl
    rcases List.mem_append.1 hsl' with h1 | h1
    · rcases hIsale1 sl h1 with ⟨r', hr', hrid, hrst⟩
      refine ⟨confirmResUpdate (gResIds g) r', List.mem_map.2 ⟨r', hr', rfl⟩, ?_, ?_⟩
      · rw [confirmResUpdate_id]
        exact hrid
      · exact confirmResUpdate_confirmed_of (gResIds g) r' hrst
    · rcases groupSales_mem_inv now g db.nextId sl h1 with ⟨_, _, t, ht, hres, _, _⟩
      have htg : t.1.id ∈ gResIds g := List.mem_map.2 ⟨t, ht, rfl⟩
      refine ⟨confirmResUpdate (gResIds g) t.1,
        List.mem_map.2 ⟨t.1, hfst t ht, rfl⟩, ?_, ?_⟩
      · rw [confirmResUpdate_id]
        exact hres.symm
      · rw [confirmResUpdate_of_mem _ _ htg]
  · -- every reservation still owns at most one sale
    intro sl hsl
    have hsl' : sl ∈ db.sales ++ groupSales now db.nextId g := hsl
    show saleCountFor (db.sales ++ groupSales now db.nextId g) sl.reservationId = 1
    unfold saleCountFor
    rw [List.countP_append]
    rcases List.mem_append.1 hsl' with h1 | h1
    · have hold : db.sales.countP (fun s => s.reservationId == sl.reservationId) = 1 := by
        have hq := hIsale2 sl h1
        unfold saleCountFor at hq
        exact hq
      have hnew : (groupSales now db.nextId g).countP
          (fun s => s.reservationId == sl.reservationId) = 0 := by
        rw [groupSales_countP]
        refine List.countP_eq_zero.2 (fun u hu hpu => ?_)
        have hpu' : u.1.id = sl.reservationId := by simpa using hpu
        exact hNPS sl h1 u.1 (hfst u hu) hpu'.symm (hpend u hu)
      rw [hold, hnew]
    · have hnew : (groupSales now db.nextId g).countP
          (fun s => s.reservationId == sl.reservationId) = 1 := by
        rcases groupSales_mem_inv now g db.nextId sl h1 with ⟨_, _, t, ht, hres, _, _⟩
        rw [hres]
        exact groupSales_res_countP_one now db g gnodup t ht
      have hold : db.sales.countP (fun s => s.reservationId == sl.reservationId) = 0 := by
        rcases groupSales_mem_inv now g db.nextId sl h1 with ⟨_, _, t, ht, hres, _, _⟩
        rw [hres]
        exact old_sales_countP_zero db hNPS t.1 (hfst t ht) (hpend t ht)
      rw [hold, hnew]

theorem setReservationStatus_seatId (i : Nat) (st : ReservationStatus) (r : Reservation) :
    (if r.id = i then { r with status := st } else r).seatId = r.seatId := by
  by_cases h : r.id = i <;> simp [h]

/-- Expiring a reservation preserves wellformedness and the strengthened
    consistency invariant. -/
theorem expire_preserves (db : Db) (now rid : Nat)
    (hW : WfDb db) (hI : FullInv db) :
    WfDb (expireReservation db now rid) ∧ FullInv (expireReservation db now rid) := by
  unfold expireReservation
  rcases hR : findReservationById db rid with _ | r
  · simp only [hR]
    exact ⟨hW, hI⟩
  simp only [hR]
  rcases hS : findSeatById db r.seatId with _ | seat
  · simp only [hS]
    exact ⟨hW, hI⟩
  simp only [hS]
  by_cases hP : r.status ≠ ReservationStatus.PENDING
  · rw [if_pos hP]
    exact ⟨hW, hI⟩
  rw [if_neg hP]
  by_cases hT : now ≤ r.expiresAt
  · rw [if_pos hT]
    exact ⟨hW, hI⟩
  rw [if_neg hT]
  have hPend : r.status = ReservationStatus.PENDING := not_not.1 hP
  have hrmem : r ∈ db.reservations := findReservationById_mem db rid r hR
  have hskey : seat.id = r.seatId := findSeatById_key db r.seatId seat hS
  have hsmem : seat ∈ db.seats := findSeatById_mem db r.seatId seat hS
  rcases hW with ⟨hWr, hWs, hWsl, hWrn, hWsn, hWfk⟩
  rcases hI with ⟨hIseat, hIsale1, hIsale2⟩
  have hpend_pos : 0 < pendingCount db.reservations seat.id := by
    unfold pendingCount
    refine List.countP_pos_iff.2 ⟨r, hrmem, ?_⟩
    simp [hskey, hPend]
  have hsf := hIseat seat hsmem
  have hseatRES : seat.status = SeatStatus.RESERVED ∧
      pendingCount db.reservations seat.id = 1 ∧
      confirmedCount db.reservations seat.id = 0 := by
    cases hstat : seat.status with
    | AVAILABLE =>
        rw [seatFullInv_eq_available db seat hstat] at hsf
        simp only [Bool.and_eq_true, beq_iff_eq] at hsf
        exfalso
        omega
    | RESERVED =>
        rw [seatFullInv_eq_reserved db seat hstat] at hsf
        simp only [Bool.and_eq_true, beq_iff_eq] at hsf
        exact ⟨rfl, hsf.1, hsf.2⟩
    | SOLD =>
        rw [seatFullInv_eq_sold db seat hstat] at hsf
        simp only [Bool.and_eq_true, beq_iff_eq] at hsf
        exfalso
        omega
  have huniq : ∀ y ∈ db.reservations, y.seatId = seat.id →
      y.status = ReservationStatus.PENDING → y = r := by
    intro y hy hys hyp
    by_contra hne
    have h2 := two_le_countP
      (fun z => z.seatId == seat.id && z.status == ReservationStatus.PENDING)
      db.reservations y r hy hrmem hne (by simp [hys, hyp]) (by simp [hskey, hPend])
    have h1 := hseatRES.2.1
    unfold pendingCount at h1
    omega
  have hp0 : pendingCount
      (setReservationStatus db.reservations r.id ReservationStatus.EXPIRED) seat.id = 0 := by
    unfold pendingCount setReservationStatus
    rw [List.countP_map]
    refine List.countP_eq_zero.2 (fun y hy hpy => ?_)
    have hpy' : ((if y.id = r.id then { y with status := ReservationStatus.EXPIRED } else y).seatId
          == seat.id &&
        (if y.id = r.id then { y with status := ReservationStatus.EXPIRED } else y).status
          == ReservationStatus.PENDING) = true := hpy
    rw [setReservationStatus_seatId] at hpy'
    simp only [Bool.and_eq_true, beq_iff_eq] at hpy'
    rcases hpy' with ⟨hys, hyst⟩
    by_cases hyr : y.id = r.id
    · rw [if_pos hyr] at hyst
      have himp : ReservationStatus.EXPIRED = ReservationStatus.PENDING := hyst
      exact ReservationStatus.noConfusion himp
    · rw [if_neg hyr] at hyst
      exact hyr (congrArg (fun z => z.id) (huniq y hy hys hyst))
  have hcpres : ∀ k, confirmedCount
        (setReservationStatus db.reservations r.id ReservationStatus.EXPIRED) k
      = confirmedCount db.reservations k := by
    intro k
    unfold confirmedCount setReservationStatus
    rw [List.countP_map]
    refine List.countP_congr (fun y hy => ?_)
    have heq : ((if y.id = r.id then { y with status := ReservationStatus.EXPIRED } else y).seatId
          == k &&
        (if y.id = r.id then { y with status := ReservationStatus.EXPIRED } else y).status
          == ReservationStatus.CONFIRMED)
      = (y.seatId == k && y.status == ReservationStatus.CONFIRMED) := by
      by_cases hyr : y.id = r.id
      · have hyeq : y = r :=
          nodup_field_inj (fun z => z.id) db.reservations hWr y hy r hrmem hyr
        have hyst : y.status = ReservationStatus.PENDING := by
          rw [hyeq]
          exact hPend
        rw [if_pos hyr]
        have d1 : (ReservationStatus.EXPIRED == ReservationStatus.CONFIRMED) = false := by decide
        have d2 : (ReservationStatus.PENDING == ReservationStatus.CONFIRMED) = false := by decide
        simp [hyst, d1, d2]
      · rw [if_neg hyr]
    exact iff_of_eq (congrArg (fun b => b = true) heq)
  have hppres : ∀ k, k ≠ seat.id → pendingCount
        (setReservationStatus db.reservations r.id ReservationStatus.EXPIRED) k
      = pendingCount db.reservations k := by
    intro k hk
    unfold pendingCount setReservationStatus
    rw [List.countP_map]
    refine List.countP_congr (fun y hy => ?_)
    have heq : ((if y.id = r.id then { y with status := ReservationStatus.EXPIRED } else y).seatId
          == k &&
        (if y.id = r.id then { y with status := ReservationStatus.EXPIRED } else y).status
          == ReservationStatus.PENDING)
      = (y.seatId == k && y.status == ReservationStatus.PENDING) := by
      by_cases hyr : y.id = r.id
      · have hyeq : y = r :=
          nodup_field_inj (fun z => z.id) db.reservations hWr y hy r hrmem hyr
        have hys : (y.seatId == k) = false := by
          rw [hyeq, ← hskey]
          exact beq_eq_false_iff_ne.2 (Ne.symm hk)
        rw [setReservationStatus_seatId, hys]
        rfl
      · rw [if_neg hyr]
    exact iff_of_eq (congrArg (fun b => b = true) heq)
  constructor
  · -- wellformedness after the expiration write
    refine ⟨?_, ?_, hWsl, ?_, hWsn, ?_⟩
    · show ((db.reservations.map
          (fun x => if x.id = r.id then { x with status := ReservationStatus.EXPIRED } else x)).map
            (fun x => x.id)).Nodup
      rw [List.map_map]
      have hmapeq : db.reservations.map
          ((fun x : Reservation => x.id) ∘
            (fun x => if x.id = r.id then { x with status := ReservationStatus.EXPIRED } else x))
          = db.reservations.map (fun x : Reservation => x.id) :=
        List.map_congr_left (fun y _ => setReservationStatus_id r.id ReservationStatus.EXPIRED y)
      rw [hmapeq]
      exact hWr
    · show ((db.seats.map
          (fun s => if s.id = seat.id then { s with status := SeatStatus.AVAILABLE } else s)).map
            (fun s => s.id)).Nodup
      rw [List.map_map]
      have hmapeq : db.seats.map
          ((fun s : Seat => s.id) ∘
            (fun s => if s.id = seat.id then { s with status := SeatStatus.AVAILABLE } else s))
          = db.seats.map (fun s : Seat => s.id) :=
        List.map_congr_left (fun y _ => setSeatStatus_id seat.id SeatStatus.AVAILABLE y)
      rw [hmapeq]
      exact hWs
    · intro x hx
      have hx' : x ∈ db.reservations.map
          (fun y => if y.id = r.id then { y with status := ReservationStatus.EXPIRED } else y) := hx
      rcases List.mem_map.1 hx' with ⟨y, hy, rfl⟩
      show (if y.id = r.id then { y with status := ReservationStatus.EXPIRED } else y).id < db.nextId
      rw [setReservationStatus_id]
      exact hWrn y hy
    · intro x hx
      have hx' : x ∈ db.reservations.map
          (fun y => if y.id = r.id then { y with status := ReservationStatus.EXPIRED } else y) := hx
      rcases List.mem_map.1 hx' with ⟨y, hy, rfl⟩
      show (((setSeatStatus db.seats seat.id SeatStatus.AVAILABLE).find?
          (fun s => s.id ==
            (if y.id = r.id then { y with status := ReservationStatus.EXPIRED } else y).seatId))).isSome
        = true
      rw [setReservationStatus_seatId]
      unfold setSeatStatus
      rw [find?_map_comm _ _ (fun s => by rw [setSeatStatus_id]) db.seats]
      have hk := hWfk y hy
      unfold findSeatById at hk
      rcases hfind : db.seats.find? (fun s => s.id == y.seatId) with _ | s0
      · rw [hfind] at hk
        cases hk
      · rw [hfind]
        rfl
  · -- the strengthened invariant after the expiration write
    refine ⟨?_, ?_, ?_⟩
    · intro s' hs'
      have hs'' : s' ∈ db.seats.map
          (fun s => if s.id = seat.id then { s with status := SeatStatus.AVAILABLE } else s) := hs'
      rcases List.mem_map.1 hs'' with ⟨s, hsmem2, rfl⟩
      by_cases hid : s.id = seat.id
      · have hseq : s = seat :=
          nodup_field_inj (fun z => z.id) db.seats hWs s hsmem2 seat hsmem hid
        subst hseq
        rw [if_pos hid]
        rw [seatFullInv_eq_available _ _ rfl]
        show (pendingCount
            (setReservationStatus db.reservations r.id ReservationStatus.EXPIRED) s.id == 0 &&
          confirmedCount
            (setReservationStatus db.reservations r.id ReservationStatus.EXPIRED) s.id == 0) = true
        rw [hp0, hcpres s.id, hseatRES.2.2]
        rfl
      · rw [if_neg hid]
        have hsf2 := hIseat s hsmem2
        cases hstat : s.status with
        | AVAILABLE =>
            rw [seatFullInv_eq_available db s hstat] at hsf2
            rw [seatFullInv_eq_available _ _ hstat]
            show (pendingCount
                (setReservationStatus db.reservations r.id ReservationStatus.EXPIRED) s.id == 0 &&
              confirmedCount
                (setReservationStatus db.reservations r.id ReservationStatus.EXPIRED) s.id == 0) = true
            rw [hppres s.id hid, hcpres s.id]
            exact hsf2
        | RESERVED =>
            rw [seatFullInv_eq_reserved db s hstat] at hsf2
            rw [seatFullInv_eq_reserved _ _ hstat]
            show (pendingCount
                (setReservationStatus db.reservations r.id ReservationStatus.EXPIRED) s.id == 1 &&
              confirmedCount
                (setReservationStatus db.reservations r.id ReservationStatus.EXPIRED) s.id == 0) = true
            rw [hppres s.id hid, hcpres s.id]
            exact hsf2
        | SOLD =>
            rw [seatFullInv_eq_sold db s hstat] at hsf2
            simp only [Bool.and_eq_true, beq_iff_eq] at hsf2
            rcases hsf2 with ⟨hsp, hsc, hall⟩
            rw [seatFullInv_eq_sold _ _ hstat]
            simp only [Bool.and_eq_true, beq_iff_eq]
            refine ⟨?_, ?_, ?_⟩
            · show pendingCount
                (setReservationStatus db.reservations r.id ReservationStatus.EXPIRED) s.id = 0
              rw [hppres s.id hid]
              exact hsp
            · show confirmedCount
                (setReservationStatus db.reservations r.id ReservationStatus.EXPIRED) s.id = 1
              rw [hcpres s.id]
              exact hsc
            · have hclause : ∀ y' ∈ setReservationStatus db.reservations r.id
                  ReservationStatus.EXPIRED, y'.seatId = s.id →
                  y'.status = ReservationStatus.CONFIRMED →
                  saleCountFor db.sales y'.id = 1 := by
                intro y' hy' hys' hyst'
                have hy'' : y' ∈ db.reservations.map
                    (fun y => if y.id = r.id then
                      { y with status := ReservationStatus.EXPIRED } else y) := hy'
                rcases List.mem_map.1 hy'' with ⟨y, hy, rfl⟩
                rw [setReservationStatus_seatId] at hys'
                by_cases hyr : y.id = r.id
                · rw [if_pos hyr] at hyst'
                  have himp : ReservationStatus.EXPIRED = ReservationStatus.CONFIRMED := hyst'
                  exact ReservationStatus.noConfusion himp
                · rw [if_neg hyr] at hyst'
                  show saleCountFor db.sales
                      (if y.id = r.id then { y with status := ReservationStatus.EXPIRED } else y).id
                    = 1
                  rw [setReservationStatus_id]
                  exact sold_all_clause_inv db s.id hall y hy hys' hyst'
              exact sold_all_clause { sessions := db.sessions, seats := setSeatStatus db.seats seat.id SeatStatus.AVAILABLE, reservations := setReservationStatus db.reservations r.id ReservationStatus.EXPIRED, sales := db.sales, nextId := db.nextId } s.id hclause
    · intro sl hsl
      have hsl' : sl ∈ db.sales := hsl
      rcases hIsale1 sl hsl' with ⟨r', hr', hrid, hrst⟩
      have hne : r'.id ≠ r.id := by
        intro he
        have hre : r' = r :=
          nodup_field_inj (fun z => z.id) db.reservations hWr r' hr' r hrmem he
        rw [hre, hPend] at hrst
        exact ReservationStatus.noConfusion hrst
      exact ⟨r', List.mem_map.2 ⟨r', hr', by rw [if_neg hne]⟩, hrid, hrst⟩
    · exact hIsale2

/-- One iteration of the hold loop - seat set RESERVED plus a fresh PENDING
    reservation - preserves wellformedness and the strengthened invariant. -/
theorem createStep_preserves (db : Db) (sy : Seat) (uid : String) (exp : Nat)
    (hW : WfDb db) (hI : FullInv db)
    (hmem : sy ∈ db.seats) (hav : sy.status = SeatStatus.AVAILABLE) :
    WfDb { sessions := db.sessions,
           seats := setSeatStatus db.seats sy.id SeatStatus.RESERVED,
           reservations := db.reservations ++ [newHold db.nextId sy.id uid exp],
           sales := db.sales, nextId := db.nextId + 1 } ∧
    FullInv { sessions := db.sessions,
              seats := setSeatStatus db.seats sy.id SeatStatus.RESERVED,
              reservations := db.reservations ++ [newHold db.nextId sy.id uid exp],
              sales := db.sales, nextId := db.nextId + 1 } := by
  rcases hW with ⟨hWr, hWs, hWsl, hWrn, hWsn, hWfk⟩
  rcases hI with ⟨hIseat, hIsale1, hIsale2⟩
  have hsf := hIseat sy hmem
  rw [seatFullInv_eq_available db sy hav] at hsf
  simp only [Bool.and_eq_true, beq_iff_eq] at hsf
  rcases hsf with ⟨hp0, hc0⟩
  have hcadd : ∀ k, confirmedCount
        (db.reservations ++ [newHold db.nextId sy.id uid exp]) k
      = confirmedCount db.reservations k := by
    intro k
    unfold confirmedCount
    rw [List.countP_append]
    have hone : List.countP
        (fun r => r.seatId == k && r.status == ReservationStatus.CONFIRMED)
        [newHold db.nextId sy.id uid exp] = 0 := by
      have hd : (ReservationStatus.PENDING == ReservationStatus.CONFIRMED) = false := by decide
      simp [List.countP_cons, newHold, hd]
    rw [hone]
    rfl
  have hpadd : ∀ k, pendingCount
        (db.reservations ++ [newHold db.nextId sy.id uid exp]) k
      = pendingCount db.reservations k + (if sy.id = k then 1 else 0) := by
    intro k
    unfold pendingCount
    rw [List.countP_append]
    have hone : List.countP
        (fun r => r.seatId == k && r.status == ReservationStatus.PENDING)
        [newHold db.nextId sy.id uid exp]
        = (if sy.id = k then 1 else 0) := by
      by_cases hk : sy.id = k
      · simp [List.countP_cons, newHold, hk]
      · simp [List.countP_cons, newHold, hk]
    rw [hone]
  constructor
  · refine ⟨?_, ?_, hWsl, ?_, ?_, ?_⟩
    · show ((db.reservations ++ [newHold db.nextId sy.id uid exp]).map
          (fun x => x.id)).Nodup
      rw [List.map_append, List.nodup_append]
      refine ⟨hWr, by simp, ?_⟩
      intro a ha hb
      rcases List.mem_map.1 ha with ⟨x, hx, hxa⟩
      have hxa' : x.id = a := hxa
      have hlt := hWrn x hx
      have hbe : a = db.nextId := by simpa [newHold] using hb
      omega
    · show ((db.seats.map
          (fun s => if s.id = sy.id then { s with status := SeatStatus.RESERVED } else s)).map
            (fun s => s.id)).Nodup
      rw [List.map_map]
      have hmapeq : db.seats.map
          ((fun s : Seat => s.id) ∘
            (fun s => if s.id = sy.id then { s with status := SeatStatus.RESERVED } else s))
          = db.seats.map (fun s : Seat => s.id) :=
        List.map_congr_left (fun y _ => setSeatStatus_id sy.id SeatStatus.RESERVED y)
      rw [hmapeq]
      exact hWs
    · intro x hx
      rcases List.mem_append.1 hx with h1 | h1
      · have := hWrn x h1
        show x.id < db.nextId + 1
        omega
      · have hx1 : x = newHold db.nextId sy.id uid exp := by simpa using h1
        rw [hx1]
        show db.nextId < db.nextId + 1
        omega
    · intro sl hsl
      have := hWsn sl hsl
      show sl.id < db.nextId + 1
      omega
    · intro x hx
      rcases List.mem_append.1 hx with h1 | h1
      · show (((setSeatStatus db.seats sy.id SeatStatus.RESERVED).find?
            (fun s => s.id == x.seatId))).isSome = true
        unfold setSeatStatus
        rw [find?_map_comm _ _ (fun s => by rw [setSeatStatus_id]) db.seats]
        have hk := hWfk x h1
        unfold findSeatById at hk
        rcases hfind : db.seats.find? (fun s => s.id == x.seatId) with _ | s0
        · rw [hfind] at hk
          cases hk
        · rw [hfind]
          rfl
      · have hx1 : x = newHold db.nextId sy.id uid exp := by simpa using h1
        rw [hx1]
        show (((setSeatStatus db.seats sy.id SeatStatus.RESERVED).find?
            (fun s => s.id == sy.id))).isSome = true
        unfold setSeatStatus
        rw [find?_map_comm _ _ (fun s => by rw [setSeatStatus_id]) db.seats]
        have hfound : (db.seats.find? (fun s => s.id == sy.id)).isSome :=
          List.find?_isSome.2 ⟨sy, hmem, by simp⟩
        rcases hfind : db.seats.find? (fun s => s.id == sy.id) with _ | s0
        · rw [hfind] at hfound
          cases hfound
        · rw [hfind]
          rfl
  · refine ⟨?_, ?_, ?_⟩
    · intro s' hs'
      have hs'' : s' ∈ db.seats.map
          (fun s => if s.id = sy.id then { s with status := SeatStatus.RESERVED } else s) := hs'
      rcases List.mem_map.1 hs'' with ⟨s, hsmem2, rfl⟩
      by_cases hid : s.id = sy.id
      · have hseq : s = sy :=
          nodup_field_inj (fun z => z.id) db.seats hWs s hsmem2 sy hmem hid
        subst hseq
        rw [if_pos hid]
        rw [seatFullInv_eq_reserved _ _ rfl]
        show (pendingCount (db.reservations ++ [newHold db.nextId s.id uid exp]) s.id == 1 &&
          confirmedCount (db.reservations ++ [newHold db.nextId s.id uid exp]) s.id == 0) = true
        rw [hpadd s.id, hcadd s.id, hp0, hc0, if_pos rfl]
        rfl
      · rw [if_neg hid]
        have hsf2 := hIseat s hsmem2
        have hne : (if sy.id = s.id then 1 else 0) = 0 :=
          if_neg (fun he => hid he.symm)
        cases hstat : s.status with
        | AVAILABLE =>
            rw [seatFullInv_eq_available db s hstat] at hsf2
            rw [seatFullInv_eq_available _ _ hstat]
            show (pendingCount (db.reservations ++ [newHold db.nextId sy.id uid exp]) s.id == 0 &&
              confirmedCount (db.reservations ++ [newHold db.nextId sy.id uid exp]) s.id == 0)
              = true
            rw [hpadd s.id, hcadd s.id, hne]
            exact hsf2
        | RESERVED =>
            rw [seatFullInv_eq_reserved db s hstat] at hsf2
            rw [seatFullInv_eq_reserved _ _ hstat]
            show (pendingCount (db.reservations ++ [newHold db.nextId sy.id uid exp]) s.id == 1 &&
              confirmedCount (db.reservations ++ [newHold db.nextId sy.id uid exp]) s.id == 0)
              = true
            rw [hpadd s.id, hcadd s.id, hne]
            exact hsf2
        | SOLD =>
            rw [seatFullInv_eq_sold db s hstat] at hsf2
            simp only [Bool.and_eq_true, beq_iff_eq] at hsf2
            rcases hsf2 with ⟨hsp, hsc, hall⟩
            rw [seatFullInv_eq_sold _ _ hstat]
            simp only [Bool.and_eq_true, beq_iff_eq]
            refine ⟨?_, ?_, ?_⟩
            · show pendingCount (db.reservations ++ [newHold db.nextId sy.id uid exp]) s.id = 0
              rw [hpadd s.id, hne]
              omega
            · show confirmedCount (db.reservations ++ [newHold db.nextId sy.id uid exp]) s.id = 1
              rw [hcadd s.id]
              exact hsc
            · have hclause : ∀ y ∈ db.reservations ++ [newHold db.nextId sy.id uid exp],
                  y.seatId = s.id → y.status = ReservationStatus.CONFIRMED →
                  saleCountFor db.sales y.id = 1 := by
                intro y hy hys hyst
                rcases List.mem_append.1 hy with h1 | h1
                · exact sold_all_clause_inv db s.id hall y h1 hys hyst
                · have hy1 : y = newHold db.nextId sy.id uid exp := by simpa using h1
                  rw [hy1] at hyst
                  have himp : ReservationStatus.PENDING = ReservationStatus.CONFIRMED := hyst
                  exact ReservationStatus.noConfusion himp
              exact sold_all_clause { sessions := db.sessions, seats := setSeatStatus db.seats sy.id SeatStatus.RESERVED, reservations := db.reservations ++ [newHold db.nextId sy.id uid exp], sales := db.sales, nextId := db.nextId + 1 } s.id hclause
    · intro sl hsl
      have hsl' : sl ∈ db.sales := hsl
      rcases hIsale1 sl hsl' with ⟨r', hr', hrid, hrst⟩
      exact ⟨r', List.mem_append.2 (Or.inl hr'), hrid, hrst⟩
    · exact hIsale2

/-- Every iteration of the hold loop preserves wellformedness and the
    strengthened invariant up to the committed store. -/
theorem createHoldLoop_preserves (sid : Nat) (uid : String) (exp : Nat) :
    ∀ (labels : List String) (db : Db) (acc : List ReservationResponse)
      (db2 : Db) (out : List ReservationResponse),
      WfDb db → FullInv db →
      createHoldLoop sid uid exp db acc labels = Except.ok (db2, out) →
      WfDb db2 ∧ FullInv db2 := by
  intro labels
  induction labels with
  | nil =>
    intro db acc db2 out hW hI h
    have h' : (Except.ok (db, acc) : Except SvcError (Db × List ReservationResponse))
        = Except.ok (db2, out) := h
    injection h' with h''
    have hdb : db = db2 := congrArg Prod.fst h''
    rw [← hdb]
    exact ⟨hW, hI⟩
  | cons y rest ih =>
    intro db acc db2 out hW hI h
    rcases hfy : findSeatByNumber db sid y with _ | sy
    · rw [show createHoldLoop sid uid exp db acc (y :: rest)
          = Except.error (SvcError.seatNotFoundInSession y sid) from by
        unfold createHoldLoop
        simp only [hfy]] at h
      exact Except.noConfusion h
    by_cases hav : sy.status ≠ SeatStatus.AVAILABLE
    · rw [show createHoldLoop sid uid exp db acc (y :: rest)
          = Except.error (SvcError.seatNotAvailable y sy.status) from by
        unfold createHoldLoop
        simp only [hfy]
        rw [if_pos hav]] at h
      exact Except.noConfusion h
    rw [createHoldLoop_cons_avail sid uid exp db acc y rest sy hfy hav] at h
    have hmem : sy ∈ db.seats := by
      unfold findSeatByNumber at hfy
      exact List.mem_of_find?_eq_some hfy
    have hstep := createStep_preserves db sy uid exp hW hI hmem (not_not.1 hav)
    exact ih _ _ _ _ hstep.1 hstep.2 h

/-- A committed Create Hold run preserves wellformedness and the
    strengthened invariant (an error leaves the store untouched). -/
theorem createRun_preserves (db : Db) (nowMs ttl sid : Nat)
    (labels : List String) (uid : String) (hW : WfDb db) (hI : FullInv db) :
    WfDb (createRun db nowMs ttl sid labels uid).1 ∧
    FullInv (createRun db nowMs ttl sid labels uid).1 := by
  unfold createRun
  rcases hcr : createReservation db nowMs ttl sid labels uid with e | ⟨db2, out⟩
  · simp only [hcr]
    exact ⟨hW, hI⟩
  · simp only [hcr]
    unfold createReservation at hcr
    rcases hses : findSession db sid with _ | sess
    · simp only [hses] at hcr
      exact Except.noConfusion hcr
    · simp only [hses] at hcr
      exact createHoldLoop_preserves sid uid (computeExpiresAt nowMs ttl)
        (sortLabels labels) db [] db2 out hW hI hcr

/-- The committed store of a successful confirmPayment is either unchanged
    (the idempotent short-circuit) or the batch effect of the target's
    booking group. -/
theorem confirmPayment_ok_state (db : Db) (now rid : Nat) (uid : String)
    (db2 : Db) (out : SaleResponse)
    (h : confirmPayment db now rid uid = Except.ok (db2, out)) :
    db2 = db ∨ ∃ (r : Reservation) (seat : Seat),
      findReservationByIdAndUser db rid uid = some r ∧
      findSeatById db r.seatId = some seat ∧
      db2 = confirmEffect db now (bookingGroup db r.userId seat.sessionId r.expiresAt) := by
  unfold confirmPayment at h
  rcases hR : findReservationByIdAndUser db rid uid with _ | r
  · simp only [hR] at h
    exact Except.noConfusion h
  simp only [hR] at h
  rcases hS : findSeatById db r.seatId with _ | seat
  · simp only [hS] at h
    exact Except.noConfusion h
  simp only [hS] at h
  rcases hSess : findSession db seat.sessionId with _ | sess
  · simp only [hSess] at h
    exact Except.noConfusion h
  simp only [hSess] at h
  by_cases hC : r.status = ReservationStatus.CONFIRMED
  · rw [if_pos hC] at h
    rcases hSale : findSaleByReservation db r.id with _ | sale
    · simp only [hSale] at h
      exact Except.noConfusion h
    simp only [hSale] at h
    rcases hS2 : findSeatById db sale.seatId with _ | sseat
    · simp only [hS2] at h
      exact Except.noConfusion h
    simp only [hS2] at h
    rcases hS3 : findSession db sseat.sessionId with _ | ssess
    · simp only [hS3] at h
      exact Except.noConfusion h
    simp only [hS3] at h
    injection h with h
    have hdb : db = db2 := congrArg Prod.fst h
    exact Or.inl hdb.symm
  · rw [if_neg hC] at h
    by_cases hP : r.status ≠ ReservationStatus.PENDING
    · rw [if_pos hP] at h
      exact Except.noConfusion h
    rw [if_neg hP] at h
    by_cases hE : r.expiresAt < now
    · rw [if_pos hE] at h
      exact Except.noConfusion h
    rw [if_neg hE] at h
    rw [confirmGroupLoop_eq] at h
    rcases hprim : (groupSales now db.nextId
        (bookingGroup db r.userId seat.sessionId r.expiresAt)).find?
          (fun s => s.reservationId == r.id) with _ | primary
    · simp only [hprim] at h
      exact Except.noConfusion h
    simp only [hprim] at h
    rcases hrel : findSaleById
        (confirmEffect db now (bookingGroup db r.userId seat.sessionId r.expiresAt))
        primary.id with _ | reloaded
    · simp only [hrel] at h
      exact Except.noConfusion h
    simp only [hrel] at h
    rcases hrs : findSeatById
        (confirmEffect db now (bookingGroup db r.userId seat.sessionId r.expiresAt))
        reloaded.seatId with _ | rseat
    · simp only [hrs] at h
      exact Except.noConfusion h
    simp only [hrs] at h
    rcases hsess2 : findSession
        (confirmEffect db now (bookingGroup db r.userId seat.sessionId r.expiresAt))
        rseat.sessionId with _ | rsess
    · simp only [hsess2] at h
      exact Except.noConfusion h
    simp only [hsess2] at h
    injection h with h
    have hdb : confirmEffect db now (bookingGroup db r.userId seat.sessionId r.expiresAt)
        = db2 := congrArg Prod.fst h
    exact Or.inr ⟨r, seat, rfl, hS, hdb.symm⟩

/-- A committed Confirm Payment run preserves wellformedness and the
    strengthened invariant. -/
theorem confirmRun_preserves (db : Db) (now rid : Nat) (uid : String)
    (hW : WfDb db) (hI : FullInv db) :
    WfDb (confirmRun db now rid uid).1 ∧ FullInv (confirmRun db now rid uid).1 := by
  unfold confirmRun
  rcases hcp : confirmPayment db now rid uid with e | ⟨db2, out⟩
  · simp only [hcp]
    exact ⟨hW, hI⟩
  · simp only [hcp]
    have hgoal : WfDb db2 ∧ FullInv db2 := by
      rcases confirmPayment_ok_state db now rid uid db2 out hcp with h1 | ⟨r, seat, _, _, h1⟩
      · rw [h1]
        exact ⟨hW, hI⟩
      · rw [h1]
        exact ⟨confirmEffect_wf db now _ hW,
          confirmEffect_fullInv db now r.userId seat.sessionId r.expiresAt hW hI⟩
    exact hgoal

/-- The strengthened invariant implies the literal three-clause invariant
    of the specification. -/
theorem fullInv_implies_specInv (db : Db) (hI : FullInv db) : specInv db = true := by
  unfold specInv
  rw [List.all_eq_true]
  intro s hs
  have hsf := hI.1 s hs
  show seatSpecInv db s = true
  cases hstat : s.status with
  | AVAILABLE =>
      rw [seatFullInv_eq_available db s hstat] at hsf
      simp only [Bool.and_eq_true, beq_iff_eq] at hsf
      unfold seatSpecInv
      rw [hstat]
      simp [hsf.1]
  | RESERVED =>
      rw [seatFullInv_eq_reserved db s hstat] at hsf
      simp only [Bool.and_eq_true, beq_iff_eq] at hsf
      unfold seatSpecInv
      rw [hstat]
      simp [hsf.1]
  | SOLD =>
      rw [seatFullInv_eq_sold db s hstat] at hsf
      simp only [Bool.and_eq_true, beq_iff_eq] at hsf
      unfold seatSpecInv
      rw [hstat]
      show (confirmedCount db.reservations s.id == 1 &&
        db.reservations.all (fun r =>
          !(r.seatId == s.id && r.status == ReservationStatus.CONFIRMED) ||
          saleCountFor db.sales r.id == 1)) = true
      simp only [Bool.and_eq_true]
      exact ⟨by simp [hsf.2.1], hsf.2.2⟩

/-- C4 (amended): the literal three-clause seat/reservation/sale invariant
    of the claim is not by itself inductive (see the counterexample), but the
    three operations do preserve the strengthened invariant WfDb ∧ FullInv -
    the three clauses plus: no CONFIRMED reservation on a non-SOLD seat, no
    PENDING reservation on a SOLD seat, every sale referencing an existing
    CONFIRMED reservation and exactly one sale per sold reservation - and the
    strengthened invariant implies the literal clauses, so after every
    committed transaction of Create Hold, Confirm Payment and Expire from a
    strengthened-consistent store the literal invariant again holds. -/
theorem ops_preserve_invariant (db : Db) (hW : WfDb db) (hI : FullInv db)
    (nowMs ttl sid : Nat) (labels : List String) (uidC : String)
    (nowP ridP : Nat) (uidP : String) (nowE ridE : Nat) :
    (WfDb (createRun db nowMs ttl sid labels uidC).1 ∧
     FullInv (createRun db nowMs ttl sid labels uidC).1 ∧
     specInv (createRun db nowMs ttl sid labels uidC).1 = true) ∧
    (WfDb (confirmRun db nowP ridP uidP).1 ∧
     FullInv (confirmRun db nowP ridP uidP).1 ∧
     specInv (confirmRun db nowP ridP uidP).1 = true) ∧
    (WfDb (expireReservation db nowE ridE) ∧
     FullInv (expireReservation db nowE ridE) ∧
     specInv (expireReservation db nowE ridE) = true) := by
  have h1 := createRun_preserves db nowMs ttl sid labels uidC hW hI
  have h2 := confirmRun_preserves db nowP ridP uidP hW hI
  have h3 := expire_preserves db nowE ridE hW hI
  exact ⟨⟨h1.1, h1.2, fullInv_implies_specInv _ h1.2⟩,
    ⟨h2.1, h2.2, fullInv_implies_specInv _ h2.2⟩,
    ⟨h3.1, h3.2, fullInv_implies_specInv _ h3.2⟩⟩

/-- C4 counterexample: the literal three-clause invariant alone is not
    preserved by the operations - cexDbLit satisfies it, yet confirming the
    stray PENDING hold 11 of user u at time 500 succeeds and commits a store
    violating it (a second CONFIRMED reservation and a second sale appear on
    the already SOLD seat). -/
theorem specInv_not_inductive_cex :
    specInv cexDbLit = true ∧
    specInv (confirmRun cexDbLit 500 11 "u").1 = false := by
  constructor
  · decide
  · decide

/-- Closed instantiation of the amended C4 theorem at the two-seat held
    store. -/
theorem ops_preserve_invariant_witness :
    WfDb exDbHeld ∧ FullInv exDbHeld ∧
    ((WfDb (createRun exDbHeld 1000 30 0 ["A1"] "u2").1 ∧
      FullInv (createRun exDbHeld 1000 30 0 ["A1"] "u2").1 ∧
      specInv (createRun exDbHeld 1000 30 0 ["A1"] "u2").1 = true) ∧
     (WfDb (confirmRun exDbHeld 5000 10 "u1").1 ∧
      FullInv (confirmRun exDbHeld 5000 10 "u1").1 ∧
      specInv (confirmRun exDbHeld 5000 10 "u1").1 = true) ∧
     (WfDb (expireReservation exDbHeld 40000 11) ∧
      FullInv (expireReservation exDbHeld 40000 11) ∧
      specInv (expireReservation exDbHeld 40000 11) = true)) :=
  ⟨by decide, by decide,
   ops_preserve_invariant exDbHeld (by decide) (by decide)
     1000 30 0 ["A1"] "u2" 5000 10 "u1" 40000 11⟩

end Cinema
